import Mathlib

/-!
# Verification of the `@loopback/prisma` component lifecycle

A shallow embedding of the Prisma integration component for LoopBack 4
(`PrismaComponent`, `createBindingFromPrismaModelName`, `PrismaOptions`,
`DEFAULT_PRISMA_OPTIONS`).

The dependency-injection container (`@loopback/core` Context/Binding) is an
external collaborator that the specification places out of scope; its
behaviour is modelled here from the specification's description: bindings are
named registrations mapping a key to a value, each binding carries a lock
flag, and once locked further mutation attempts must fail.  JavaScript
reference semantics of binding objects are modelled with a heap of binding
objects addressed by numeric ids, together with a key-to-id registry
(insertion ordered, as a JS `Map`).  Prisma clients live in their own heap so
that reference identity of client handles is observable.
-/

/-- Binding scopes of the container.  Modelled from the spec: the container's
`BindingScope`; only `SINGLETON` is distinguished by the component, the other
scopes are collapsed into representative alternatives (`TRANSIENT` is the
container's default). -/
inductive BindingScope where
  | transient
  | context
  | singleton
  deriving DecidableEq, Repr

/-- Binding types of the container.  Modelled from the spec: the container's
`BindingType`; `constant` is the type a binding gets from `.to(value)`, the
other alternatives represent the non-constant value sources. -/
inductive BindingType where
  | constant
  | dynamicValue
  | clazz
  | provider
  deriving DecidableEq, Repr

/-- `PrismaOptions.models`: the model namespace/tag options sub-record
(`src/extensions/prisma/src/types.ts`, `PrismaOptions`).  Optional fields are
`Option`s, mirroring TypeScript optional properties. -/
structure ModelsOptions where
  «namespace» : Option String := none
  tags : Option (List String) := none
  deriving DecidableEq, Repr

/-- `PrismaOptions` (`src/extensions/prisma/src/types.ts`).  The nested Prisma
client options (`Prisma.PrismaClientOptions`) are opaque to the component and
are modelled as an optional opaque token. -/
structure PrismaOptions where
  prismaClient : Option String := none
  lazyConnect : Option Bool := none
  models : Option ModelsOptions := none
  deriving DecidableEq, Repr

/-- Values a binding can hold.  A Prisma client handle is a reference into the
client heap; middleware functions are opaque references; the component's
options record and a client's per-model accessor property are the other bound
values. -/
inductive Val where
  | client (id : Nat)
  | middleware (id : Nat)
  | options (o : PrismaOptions)
  | modelAccessor (clientId : Nat) (accessor : String)
  deriving DecidableEq, Repr

/-- A binding object of the container.  Modelled from the spec: a named
registration mapping a key to a value, with a scope, tags and a lock flag
(`once true, further mutation attempts must fail`).  `id` is the heap address
of the object, standing in for JavaScript reference identity. -/
structure Binding where
  id : Nat
  key : String
  type : Option BindingType := none
  value : Option Val := none
  scope : BindingScope := .transient
  tags : List String := []
  isLocked : Bool := false
  deriving DecidableEq, Repr

/-- State of a `PrismaClient` object: the middleware chain built by `$use`,
and counters recording `$connect`/`$disconnect` invocations. -/
structure ClientState where
  ctorOptions : Option String := none
  middlewareChain : List Val := []
  connectCount : Nat := 0
  disconnectCount : Nat := 0
  deriving DecidableEq, Repr

/-- The two `bind`-event handlers the component registers on the middleware
extension-point view: the constructor's handler locks every arriving
middleware binding (`part_001` lines 154-156); `init()`'s handler validates
the arriving binding and attaches its middleware to the client (`part_001`
lines 275-289). -/
inductive BindHandler where
  | lockOnBind
  | attachOnBind
  deriving DecidableEq, Repr

/-- The world: the container registry and binding heap, the Prisma client
heap, the middleware extension-point view's bind-event handlers, and the
model names of the generated Prisma client (`Prisma.ModelName`). -/
structure World where
  bindingHeap : List Binding := []
  registry : List (String × Nat) := []
  clientHeap : List ClientState := []
  viewHandlers : List BindHandler := []
  modelNames : List String := []
  deriving DecidableEq, Repr

/-- Modelled from the spec: the binding key constants of `keys.ts`
(`PrismaBindings`), a file of this package not present under `src/`.  All
claims depend only on these being fixed constants, never on their literal
text. -/
def PRISMA_CLIENT_INSTANCE : String := "prisma.client"

/-- Modelled from the spec: `configBindingKeyFor(PrismaBindings.COMPONENT)`,
the configuration binding key of the component. -/
def COMPONENT_CONFIG_KEY : String := "prisma.component.config"

/-- Modelled from the spec: `PrismaBindings.PRISMA_MODEL_NAMESPACE`. -/
def PRISMA_MODEL_NAMESPACE : String := "prisma.models"

/-- Modelled from the spec: `PrismaBindings.PRISMA_MODEL_TAG`. -/
def PRISMA_MODEL_TAG : String := "prismaModel"

/-- Modelled from the spec: the middleware extension point name
(`PrismaBindings.PRISMA_MIDDLEWARE_EXTENSION_POINT`). -/
def PRISMA_MIDDLEWARE_EXTENSION_POINT : String := "prisma.middleware"

/-- The `models` record of `DEFAULT_PRISMA_OPTIONS`
(`src/extensions/prisma/src/types.ts` lines 48-51). -/
def DEFAULT_MODELS_OPTIONS : ModelsOptions :=
  { «namespace» := some PRISMA_MODEL_NAMESPACE
    tags := some [PRISMA_MODEL_TAG] }

/-- `DEFAULT_PRISMA_OPTIONS` (`src/extensions/prisma/src/types.ts` lines
46-52). -/
def DEFAULT_PRISMA_OPTIONS : PrismaOptions :=
  { lazyConnect := some false
    models := some DEFAULT_MODELS_OPTIONS }

/-- Errors.  `prismaClientNotSingleton` is the dedicated error class
`PrismaClientNotSingletonError` (from `./errors/`); every other error the
component or container raises is a plain `Error` with a message. -/
inductive Err where
  | prismaClientNotSingleton
  | generic (msg : String)
  deriving DecidableEq, Repr

/-- The message of the constructor-time conflict error (`part_001` line
201). -/
def conflictMsg : String :=
  "A Prisma Client instance was provided whilst a different instance was bound to context."

/-- The message of the non-constant client binding error (`part_001` line
223). -/
def notConstantMsg : String := "Prisma Client instance binding type not constant."

/-- The message of the invalid post-init middleware binding error (`part_001`
line 281). -/
def badMiddlewareMsg : String :=
  "Prisma middleware is not bound as singleton and/or constant."

/-- The binding object at heap address `i`. -/
def World.heapBinding (w : World) (i : Nat) : Option Binding :=
  w.bindingHeap[i]?

/-- Replace the binding object at heap address `i`. -/
def World.setHeapBinding (w : World) (i : Nat) (b : Binding) : World :=
  { w with bindingHeap := w.bindingHeap.set i b }

/-- Mutate the binding object at heap address `i` (a no-op on a dangling
address). -/
def World.modifyBinding (w : World) (i : Nat) (f : Binding → Binding) : World :=
  match w.heapBinding i with
  | some b => w.setHeapBinding i (f b)
  | none => w

/-- The heap address the registry currently maps `key` to. -/
def World.lookupId (w : World) (key : String) : Option Nat :=
  (w.registry.find? (fun p => p.1 = key)).map (fun p => p.2)

/-- `Context.getBinding(key)` in its optional form: the binding object
currently registered under `key`.  Modelled from the spec's container
interface. -/
def World.getBinding (w : World) (key : String) : Option Binding :=
  (w.lookupId key).bind (fun i => w.heapBinding i)

/-- `Context.getSync(key, {optional: true})`: resolve the value of the
binding registered under `key`.  Modelled from the spec's container
interface; value resolution beyond constant bindings is out of the
component's scope, so an unresolvable (value-less) binding yields `none`. -/
def World.getSync (w : World) (key : String) : Option Val :=
  (w.getBinding key).bind (fun b => b.value)

/-- Whether an `Except` result is a success. -/
def exceptOk {α : Type} (e : Except Err α) : Bool :=
  match e with
  | .ok _ => true
  | .error _ => false

/-- Allocate a fresh binding object (`new Binding(key)`), not yet registered
in the container.  Its heap address is the current heap length. -/
def World.newBinding (w : World) (key : String) : World × Nat :=
  ({ w with bindingHeap := w.bindingHeap ++ [{ id := w.bindingHeap.length, key := key }] },
    w.bindingHeap.length)

/-- `Context.add(binding)`: register the binding object at heap address `i`
under its key.  Modelled from the spec: once a binding's lock flag is true,
further mutation attempts must fail, so re-registering a key held by a locked
binding fails.  Otherwise the key is (re-)pointed at the new object,
preserving registry insertion order (a JS `Map`). -/
def World.addBindingId (w : World) (i : Nat) : Except Err World :=
  match w.heapBinding i with
  | none => .error (.generic "dangling binding reference")
  | some b =>
    match w.getBinding b.key with
    | some old =>
      if old.isLocked then
        .error (.generic ("Cannot rebind key " ++ b.key ++ " to a locked binding"))
      else
        .ok { w with registry := (w.registry.map
          (fun p => if p.1 = b.key then (b.key, i) else p)) }
    | none => .ok { w with registry := w.registry ++ [(b.key, i)] }

/-- `Context.bind(key)`: create a fresh binding object and register it under
`key` (replacing an unlocked existing registration).  Modelled from the spec's
container interface; the source itself notes that `bind` "creates a new
binding" (`part_001` lines 158-161). -/
def World.bindKey (w : World) (key : String) : Except Err (World × Nat) := do
  let (w1, i) := w.newBinding key
  let w2 ← w1.addBindingId i
  return (w2, i)

/-- `Binding.to(value)`: attach a constant value; sets the binding type to
`CONSTANT`. -/
def World.bindingTo (w : World) (i : Nat) (v : Val) : World :=
  w.modifyBinding i (fun b => { b with type := some .constant, value := some v })

/-- `Binding.inScope(scope)`. -/
def World.bindingInScope (w : World) (i : Nat) (s : BindingScope) : World :=
  w.modifyBinding i (fun b => { b with scope := s })

/-- `Binding.tag(tag)`. -/
def World.bindingTag (w : World) (i : Nat) (t : String) : World :=
  w.modifyBinding i (fun b => { b with tags := b.tags ++ [t] })

/-- `Binding.lock()`. -/
def World.lockBinding (w : World) (i : Nat) : World :=
  w.modifyBinding i (fun b => { b with isLocked := true })

/-- Heap addresses of the bindings matching the middleware extension-point
filter (`extensionFilter(PRISMA_MIDDLEWARE_EXTENSION_POINT)`), in registry
order: the bindings the component's `ContextView` sees. -/
def World.middlewareBindingIds (w : World) : List Nat :=
  (w.registry.filter (fun p =>
    match w.heapBinding p.2 with
    | some b => b.tags.contains PRISMA_MIDDLEWARE_EXTENSION_POINT
    | none => false)).map (fun p => p.2)

/-- Resolve the values of the binding objects at the given heap addresses, in
order (`ContextView.values()`); fails on a dangling or unresolvable
binding. -/
def World.resolveIds (w : World) : List Nat → Except Err (List Val)
  | [] => .ok []
  | i :: rest =>
    match w.heapBinding i with
    | none => .error (.generic "dangling binding reference")
    | some b =>
      match b.value with
      | none => .error (.generic ("The key '" ++ b.key ++ "' is not resolvable"))
      | some v => (w.resolveIds rest).map (fun vs => v :: vs)

/-- `this._prismaMiddleware.values()`: the middleware values currently
contributed to the extension point, in registration order. -/
def World.middlewareValues (w : World) : Except Err (List Val) :=
  w.resolveIds w.middlewareBindingIds

/-- Mutate the client object at heap address `cid` (a no-op on a dangling
address). -/
def World.modifyClient (w : World) (cid : Nat) (f : ClientState → ClientState) : World :=
  match w.clientHeap[cid]? with
  | some cs => { w with clientHeap := w.clientHeap.set cid (f cs) }
  | none => w

/-- `new PrismaClient(options)`: allocate a fresh client object. -/
def World.newClient (w : World) (opts : Option String) : World × Nat :=
  ({ w with clientHeap := w.clientHeap ++ [{ ctorOptions := opts }] },
    w.clientHeap.length)

/-- `PrismaClient.$use(middleware)`: append to the client's middleware
chain. -/
def World.clientUse (w : World) (cid : Nat) (v : Val) : World :=
  w.modifyClient cid (fun cs => { cs with middlewareChain := cs.middlewareChain ++ [v] })

/-- `PrismaClient.$connect()`: record the connect invocation; the promise's
result is modelled as a unit token. -/
def World.clientConnect (w : World) (cid : Nat) : World × Unit :=
  (w.modifyClient cid (fun cs => { cs with connectCount := cs.connectCount + 1 }), ())

/-- `PrismaClient.$disconnect()`. -/
def World.clientDisconnect (w : World) (cid : Nat) : World × Unit :=
  (w.modifyClient cid (fun cs => { cs with disconnectCount := cs.disconnectCount + 1 }), ())

/-- The middleware chain of client `cid` (empty for a dangling address). -/
def World.chainOf (w : World) (cid : Nat) : List Val :=
  ((w.clientHeap[cid]?).map (fun cs => cs.middlewareChain)).getD []

/-- The instance state of `PrismaComponent` (`part_001`): the
`_optionsBinding` reference (a binding heap address), the `_prismaClient`
reference (a client heap address, when held), the `_options` record and the
`_isInitialized` flag.  `_app` and `_prismaMiddleware` live in the
`World`. -/
structure PrismaComponent where
  optionsBindingId : Nat
  prismaClient : Option Nat := none
  options : PrismaOptions := DEFAULT_PRISMA_OPTIONS
  isInitialized : Bool := false
  deriving DecidableEq, Repr

/-- `PrismaComponent._ensureNoConflictingPrismaProvidedAndBound` (`part_001`
lines 189-204): throws when a client handle was provided and a different
value is bound under the client key (`prismaClient !== (getSync(...) ??
prismaClient)`). -/
def ensureNoConflictingPrismaProvidedAndBound (w : World) (prismaClient : Option Nat) :
    Except Err Unit :=
  match prismaClient with
  | none => .ok ()
  | some c =>
    if Val.client c ≠ ((w.getSync PRISMA_CLIENT_INSTANCE).getD (Val.client c)) then
      .error (.generic conflictMsg)
    else
      .ok ()

/-- `PrismaComponent._ensureValidPrismaClientBinding` (`part_001` lines
206-225): when no client binding exists, bind the held client as a singleton
constant; otherwise require the existing binding to be a singleton
(`PrismaClientNotSingletonError`) of constant type (generic error). -/
def ensureValidPrismaClientBinding (prismaClient : Nat) (w : World) : Except Err World :=
  match w.getBinding PRISMA_CLIENT_INSTANCE with
  | none => do
    let (w1, i) ← w.bindKey PRISMA_CLIENT_INSTANCE
    let w2 := w1.bindingTo i (Val.client prismaClient)
    return w2.bindingInScope i .singleton
  | some b =>
    if b.scope ≠ .singleton then
      .error .prismaClientNotSingleton
    else if b.type ≠ some .constant then
      .error (.generic notConstantMsg)
    else
      .ok w

/-- The deep augmentation of `_options.models` performed by the constructor
(`part_001` lines 167-171): when a `models` record is present, its unset
`namespace`/`tags` fields are filled from `DEFAULT_PRISMA_OPTIONS.models`. -/
def augmentOptions (o : PrismaOptions) : PrismaOptions :=
  match o.models with
  | none => o
  | some m =>
    let m1 : ModelsOptions :=
      { «namespace» := m.«namespace».orElse (fun _ => DEFAULT_MODELS_OPTIONS.«namespace»)
        tags := m.tags.orElse (fun _ => DEFAULT_MODELS_OPTIONS.tags) }
    { o with models := some m1 }

/-- The `PrismaComponent` constructor (`part_001` lines 133-180), in its
standalone form: `optionsParam` is the `@config()`-injected `_options`
argument (`DEFAULT_PRISMA_OPTIONS` when absent), `prismaClient` the optional
`_prismaClient` argument.  It checks for a conflicting bound client, locks
the backlog of middleware bindings and subscribes the lock-on-bind handler,
resolves or creates the options binding, deep-augments the model options,
and binds the options when the options binding has no type yet. -/
def PrismaComponent.construct (w : World) (prismaClient : Option Nat)
    (optionsParam : Option PrismaOptions) :
    Except Err (World × PrismaComponent) := do
  let opts0 := optionsParam.getD DEFAULT_PRISMA_OPTIONS
  ensureNoConflictingPrismaProvidedAndBound w prismaClient
  -- Backlog and future middleware binding locking.
  let w := (w.middlewareBindingIds).foldl (fun w i => w.lockBinding i) w
  let w := { w with viewHandlers := w.viewHandlers ++ [BindHandler.lockOnBind] }
  -- this._optionsBinding ??= getBinding(key, {optional: true}) ?? bind(key)
  let (w, optionsBindingId) ←
    match w.lookupId COMPONENT_CONFIG_KEY with
    | some i => pure (w, i)
    | none => w.bindKey COMPONENT_CONFIG_KEY
  -- Deep augment defaults for any unset options.
  let opts := augmentOptions opts0
  -- if (!this._optionsBinding.type) this._app.bind(key).to(this._options)
  let w ←
    match w.heapBinding optionsBindingId with
    | none => .error (.generic "dangling binding reference")
    | some b =>
      if b.type = none then do
        let (w1, j) ← w.bindKey COMPONENT_CONFIG_KEY
        pure (w1.bindingTo j (Val.options opts))
      else
        pure w
  return (w, { optionsBindingId := optionsBindingId, prismaClient := prismaClient,
               options := opts, isInitialized := false })

/-- `createBindingFromPrismaModelName` (`part_000`): a fresh binding under
`` `${PRISMA_MODEL_NAMESPACE}.${modelName}` `` holding the model object,
tagged `PRISMA_MODEL_TAG`. -/
def createBindingFromPrismaModelName (w : World) (modelObj : Val) (modelName : String) :
    World × Nat :=
  let (w1, i) := w.newBinding (PRISMA_MODEL_NAMESPACE ++ "." ++ modelName)
  let w2 := w1.bindingTo i modelObj
  (w2.bindingTag i PRISMA_MODEL_TAG, i)

/-- The model-binding loop of `init()` (`part_001` lines 291-301): for each
model name, `this._app.add(createBindingFromPrismaModelName(
this._prismaClient[modelName.toLowerCase()], modelName).lock())`. -/
def bindModels (w : World) (cid : Nat) : List String → Except Err World
  | [] => .ok w
  | name :: rest => do
    let (w1, i) := createBindingFromPrismaModelName w
      (Val.modelAccessor cid name.toLower) name
    let w2 := w1.lockBinding i
    let w3 ← w2.addBindingId i
    bindModels w3 cid rest

/-- Run one bind-event handler on the newly added binding at heap address
`i`.  `lockOnBind` is the constructor's handler (`part_001` lines 154-156);
`attachOnBind` is `init()`'s handler (`part_001` lines 275-289), which
rejects a non-constant or non-singleton binding before resolving the client
and attaching the middleware. -/
def runBindHandler (h : BindHandler) (w : World) (i : Nat) : Except Err World :=
  match h with
  | .lockOnBind => .ok (w.lockBinding i)
  | .attachOnBind =>
    match w.heapBinding i with
    | none => .error (.generic "dangling binding reference")
    | some b =>
      if b.type ≠ some BindingType.constant ∨ b.scope ≠ BindingScope.singleton then
        .error (.generic badMiddlewareMsg)
      else
        match w.getSync PRISMA_CLIENT_INSTANCE with
        | some (.client cid) =>
          match w.getSync b.key with
          | some v => .ok (w.clientUse cid v)
          | none => .error (.generic ("The key '" ++ b.key ++ "' is not resolvable"))
        | _ => .error (.generic ("The key '" ++ PRISMA_CLIENT_INSTANCE ++ "' is not resolvable"))

/-- Emit the view's `bind` event for the binding at heap address `i`: run the
subscribed handlers in subscription order.  A throwing handler stops the
emission; mutations made by completed handlers persist (JavaScript
semantics), which is why the result carries both the world and the optional
error. -/
def emitBind : List BindHandler → World → Nat → World × Option Err
  | [], w, _ => (w, none)
  | h :: hs, w, i =>
    match runBindHandler h w i with
    | .ok w1 => emitBind hs w1 i
    | .error e => (w, some e)

/-- The sequence of worlds observed during a `bind`-event emission: the world
before any handler and after each completed handler. -/
def emitBindTrace : List BindHandler → World → Nat → List World
  | [], w, _ => [w]
  | h :: hs, w, i =>
    match runBindHandler h w i with
    | .ok w1 => w :: emitBindTrace hs w1 i
    | .error _ => [w]

/-- Modelled from the spec: the registration part of contributing a
middleware entry to the extension point — a new binding tagged for the
extension point, with the given value source, type and scope, registered in
the container. -/
def World.registerMiddlewareEntry (w : World) (key : String) (ty : Option BindingType)
    (v : Option Val) (scope : BindingScope) : World × Nat × Option Err :=
  let (w1, i) := w.newBinding key
  let w2 := w1.modifyBinding i (fun b =>
    { b with type := ty, value := v, scope := scope,
             tags := [PRISMA_MIDDLEWARE_EXTENSION_POINT] })
  match w2.addBindingId i with
  | .error e => (w2, i, some e)
  | .ok w3 => (w3, i, none)

/-- Modelled from the spec: an external actor contributes a middleware entry
to the extension point; after the registration, the view's `bind` event runs
the subscribed handlers synchronously on the fully configured entry. -/
def World.bindMiddlewareEntry (w : World) (key : String) (ty : Option BindingType)
    (v : Option Val) (scope : BindingScope) : World × Option Err :=
  match w.registerMiddlewareEntry key ty v scope with
  | (w2, _, some e) => (w2, some e)
  | (w3, i, none) => emitBind w3.viewHandlers w3 i

/-- The body of `init()` past the `_isInitialized` guard (`part_001` lines
239-303): re-check the conflict invariant; validate the client binding when a
client is held, otherwise refresh the options from the container, construct a
client and bind it as a singleton constant; lock the `_optionsBinding`
reference and the registered client binding; attach the middleware backlog in
registration order; subscribe the attach-on-bind handler; bind the model
accessors. -/
def PrismaComponent.initFresh (w : World) (c : PrismaComponent) :
    Except Err (World × PrismaComponent) := do
  ensureNoConflictingPrismaProvidedAndBound w c.prismaClient
  let (w, c) ←
    match c.prismaClient with
    | some pc => do
      let w1 ← ensureValidPrismaClientBinding pc w
      pure (w1, c)
    | none => do
      -- Late refresh of Prisma options cache.
      let o ← match w.getSync COMPONENT_CONFIG_KEY with
        | some (.options o) => Except.ok o
        | _ => .error (.generic ("The key '" ++ COMPONENT_CONFIG_KEY ++ "' is not resolvable"))
      let (w1, cid) := w.newClient o.prismaClient
      let (w2, i) ← w1.bindKey PRISMA_CLIENT_INSTANCE
      let w3 := w2.bindingTo i (Val.client cid)
      let w4 := w3.bindingInScope i .singleton
      pure (w4, { c with options := o, prismaClient := some cid })
  let pcbId ← match w.lookupId PRISMA_CLIENT_INSTANCE with
    | some i => Except.ok i
    | none => .error (.generic ("The key '" ++ PRISMA_CLIENT_INSTANCE ++ "' is not bound"))
  -- Lock the these bindings as changes after initialization are not
  -- supported.
  let w := w.lockBinding c.optionsBindingId
  let w := w.lockBinding pcbId
  -- Initiate middleware backlog and future registration
  let mids ← w.middlewareValues
  let cid ← match c.prismaClient with
    | some cid => Except.ok cid
    | none => .error (.generic "PrismaClient not set")
  let w := mids.foldl (fun w v => w.clientUse cid v) w
  let w := { w with viewHandlers := w.viewHandlers ++ [BindHandler.attachOnBind] }
  -- Bind models
  let w ← bindModels w cid w.modelNames
  return (w, { c with isInitialized := true })

/-- `PrismaComponent.init` (`part_001` lines 236-304): a no-op on an already
initialized component. -/
def PrismaComponent.init (w : World) (c : PrismaComponent) :
    Except Err (World × PrismaComponent) :=
  if c.isInitialized then .ok (w, c) else PrismaComponent.initFresh w c

/-- `PrismaComponent.start` (`part_001` lines 320-324): initialize when
needed; with `lazyConnect` set, resolve without connecting (`none`);
otherwise call `$connect` and return its result. -/
def PrismaComponent.start (w : World) (c : PrismaComponent) :
    Except Err (World × PrismaComponent × Option Unit) := do
  let (w, c) ←
    if c.isInitialized then pure (w, c) else PrismaComponent.init w c
  if c.options.lazyConnect.getD false then
    return (w, c, none)
  match c.prismaClient with
  | some cid =>
    let (w1, r) := w.clientConnect cid
    return (w1, c, some r)
  | none => .error (.generic "PrismaClient not set")

/-- `PrismaComponent.stop` (`part_001` lines 335-338): a no-op before
initialization, `$disconnect` after. -/
def PrismaComponent.stop (w : World) (c : PrismaComponent) :
    Except Err (World × PrismaComponent × Option Unit) :=
  if !c.isInitialized then .ok (w, c, none)
  else
    match c.prismaClient with
    | some cid =>
      let (w1, r) := w.clientDisconnect cid
      .ok (w1, c, some r)
    | none => .error (.generic "PrismaClient not set")


/-! ## Demonstration scenarios

Concrete worlds used by the witnesses and counterexamples. -/

/-- A demonstration world: an empty container, for a generated Prisma client
exposing two models. -/
def demoWorld : World := { modelNames := ["User", "Post"] }

/-- Fallback component used only to extract concrete states out of
`Except`. -/
def fallbackComponent : PrismaComponent := { optionsBindingId := 0 }

/-- The component constructed standalone in `demoWorld`, with no supplied
client and no bound configuration. -/
def demoConstructed : World × PrismaComponent :=
  ((PrismaComponent.construct demoWorld none none).toOption).getD
    (demoWorld, fallbackComponent)

/-- `demoConstructed` after `init()`. -/
def demoInitialized : World × PrismaComponent :=
  ((PrismaComponent.init demoConstructed.1 demoConstructed.2).toOption).getD
    (demoWorld, fallbackComponent)

/-! ## Lifecycle-flag lemmas -/

/-- Every successful fresh initialization leaves `_isInitialized` true. -/
theorem initFresh_isInitialized (w w' : World) (c c' : PrismaComponent)
    (h : PrismaComponent.initFresh w c = .ok (w', c')) : c'.isInitialized = true := by
  unfold PrismaComponent.initFresh at h
  simp only [bind, Except.bind, pure, Except.pure] at h
  repeat' split at h
  all_goals first
    | (obtain ⟨h1, h2⟩ := Prod.mk.inj (Except.ok.inj h); rw [← h2])
    | simp_all

/-- Every successful `init()` leaves `_isInitialized` true. -/
theorem init_isInitialized (w w' : World) (c c' : PrismaComponent)
    (h : PrismaComponent.init w c = .ok (w', c')) : c'.isInitialized = true := by
  unfold PrismaComponent.init at h
  split at h
  next hguard =>
    obtain ⟨h1, h2⟩ := Prod.mk.inj (Except.ok.inj h)
    rw [← h2]; exact hguard
  next => exact initFresh_isInitialized w w' c c' h

/-- `init()` on an initialized component returns immediately, changing
nothing. -/
theorem init_of_isInitialized (w : World) (c : PrismaComponent)
    (h : c.isInitialized = true) : PrismaComponent.init w c = .ok (w, c) := by
  unfold PrismaComponent.init
  rw [h]
  simp

/-- C1: after a successful `init()`, a second `init()` is a no-op — it
returns immediately with no new binding, no locking, no middleware
attachment, and no component-state change, so `init(); init()` leaves
exactly the state of a single `init()`. -/
theorem C1_init_idempotent (w w' : World) (c c' : PrismaComponent)
    (h : PrismaComponent.init w c = .ok (w', c')) :
    PrismaComponent.init w' c' = .ok (w', c') :=
  init_of_isInitialized w' c' (init_isInitialized w w' c c' h)

/-- Witness for C1 at the demonstration scenario. -/
theorem C1_init_idempotent_witness :
    PrismaComponent.init demoInitialized.1 demoInitialized.2 =
      .ok (demoInitialized.1, demoInitialized.2) :=
  C1_init_idempotent demoConstructed.1 demoInitialized.1 demoConstructed.2
    demoInitialized.2 (by rfl)

/-! ## C3: conflicting client handles -/

/-- A world with a client handle bound under the client key and two client
objects on the heap. -/
def conflictWorld : World :=
  { bindingHeap := [{ id := 0, key := PRISMA_CLIENT_INSTANCE, type := some .constant,
                      value := some (Val.client 0), scope := .singleton }]
    registry := [(PRISMA_CLIENT_INSTANCE, 0)]
    clientHeap := [{}, {}] }

/-- C3: when a client handle is supplied to the constructor while a different
value is bound under the client key, the conflict check — and with it the
constructor — throws the conflict error; when the two are reference-identical
or at most one of them exists, the check passes. -/
theorem C3_client_conflict (w : World) (pc : Option Nat) (op : Option PrismaOptions) :
    ((∃ cI v, pc = some cI ∧ w.getSync PRISMA_CLIENT_INSTANCE = some v ∧ v ≠ Val.client cI) →
      ensureNoConflictingPrismaProvidedAndBound w pc = .error (.generic conflictMsg) ∧
      PrismaComponent.construct w pc op = .error (.generic conflictMsg))
  ∧ ((pc = none ∨ w.getSync PRISMA_CLIENT_INSTANCE = none ∨
      (∃ cI, pc = some cI ∧ w.getSync PRISMA_CLIENT_INSTANCE = some (Val.client cI))) →
      ensureNoConflictingPrismaProvidedAndBound w pc = .ok ()) := by
  constructor
  · rintro ⟨cI, v, hpc, hb, hne⟩
    have hens : ensureNoConflictingPrismaProvidedAndBound w pc =
        .error (.generic conflictMsg) := by
      unfold ensureNoConflictingPrismaProvidedAndBound
      rw [hpc, hb]
      simp [Option.getD]
      intro hEq
      exact absurd hEq.symm hne
    refine ⟨hens, ?_⟩
    unfold PrismaComponent.construct
    rw [hens]
    rfl
  · rintro (hnone | hnone | ⟨cI, hpc, hb⟩)
    · unfold ensureNoConflictingPrismaProvidedAndBound
      rw [hnone]
    · unfold ensureNoConflictingPrismaProvidedAndBound
      cases pc with
      | none => rfl
      | some cI => rw [hnone]; simp
    · unfold ensureNoConflictingPrismaProvidedAndBound
      rw [hpc, hb]
      simp

/-- Witness for C3: supplying client 1 while client 0 is bound throws; the
identical pair and the no-client case pass. -/
theorem C3_client_conflict_witness :
    ensureNoConflictingPrismaProvidedAndBound conflictWorld (some 1) =
      .error (.generic conflictMsg)
    ∧ PrismaComponent.construct conflictWorld (some 1) none =
      .error (.generic conflictMsg)
    ∧ ensureNoConflictingPrismaProvidedAndBound conflictWorld (some 0) = .ok ()
    ∧ ensureNoConflictingPrismaProvidedAndBound demoWorld none = .ok () := by
  have h1 := (C3_client_conflict conflictWorld (some 1) none).1
    ⟨1, Val.client 0, rfl, by rfl, by decide⟩
  have h2 := (C3_client_conflict conflictWorld (some 0) none).2
    (Or.inr (Or.inr ⟨0, rfl, by rfl⟩))
  have h3 := (C3_client_conflict demoWorld none none).2 (Or.inl rfl)
  exact ⟨h1.1, h1.2, h2, h3⟩

/-! ## C5: start() -/

/-- `demoWorld` constructed with `lazyConnect: true`. -/
def lazyConstructed : World × PrismaComponent :=
  ((PrismaComponent.construct demoWorld none
    (some { lazyConnect := some true })).toOption).getD (demoWorld, fallbackComponent)

/-- `lazyConstructed` after `init()`. -/
def lazyInitialized : World × PrismaComponent :=
  ((PrismaComponent.init lazyConstructed.1 lazyConstructed.2).toOption).getD
    (demoWorld, fallbackComponent)

/-- C5: on an initialized component, `start()` with `lazyConnect: true`
resolves without invoking `$connect` (nothing changes, no result); with
`lazyConnect` false or unset it invokes `$connect` exactly once and returns
its result; and on an uninitialized component `start()` first runs `init()`
and then behaves as `start()` on the initialized state. -/
theorem C5_start (w : World) (c : PrismaComponent) :
    (c.isInitialized = true → c.options.lazyConnect = some true →
      PrismaComponent.start w c = .ok (w, c, none))
  ∧ (c.isInitialized = true → c.options.lazyConnect.getD false = false →
      ∀ cid, c.prismaClient = some cid →
        PrismaComponent.start w c =
          .ok ((w.clientConnect cid).1, c, some (w.clientConnect cid).2) ∧
        ∀ cs, w.clientHeap[cid]? = some cs →
          ((w.clientConnect cid).1.clientHeap[cid]?) =
            some { cs with connectCount := cs.connectCount + 1 })
  ∧ (c.isInitialized = false → ∀ w' c', PrismaComponent.init w c = .ok (w', c') →
      PrismaComponent.start w c = PrismaComponent.start w' c') := by
  refine ⟨?_, ?_, ?_⟩
  · intro hinit hlazy
    unfold PrismaComponent.start
    rw [hinit]
    simp [hlazy, bind, Except.bind, pure, Except.pure]
  · intro hinit hlazy cid hcid
    constructor
    · unfold PrismaComponent.start
      rw [hinit]
      simp [hlazy, hcid, bind, Except.bind, pure, Except.pure]
    · intro cs hcs
      unfold World.clientConnect World.modifyClient
      rw [hcs]
      have hlt : cid < w.clientHeap.length := by
        by_contra hge
        rw [List.getElem?_len_le (Nat.le_of_not_lt hge)] at hcs
        exact Option.noConfusion hcs
      simp [List.getElem?_set, hlt]
  · intro hni w' c' h
    have hinit' := init_isInitialized w w' c c' h
    unfold PrismaComponent.start
    rw [hni, hinit']
    simp [h, bind, Except.bind, pure, Except.pure]

/-- Witness for C5: the lazy component starts without connecting; the default
component connects once; the uninitialized component initializes first. -/
theorem C5_start_witness :
    PrismaComponent.start lazyInitialized.1 lazyInitialized.2 =
      .ok (lazyInitialized.1, lazyInitialized.2, none)
    ∧ PrismaComponent.start demoInitialized.1 demoInitialized.2 =
      .ok ((demoInitialized.1.clientConnect 0).1, demoInitialized.2,
        some (demoInitialized.1.clientConnect 0).2)
    ∧ PrismaComponent.start demoConstructed.1 demoConstructed.2 =
      PrismaComponent.start demoInitialized.1 demoInitialized.2 := by
  refine ⟨?_, ?_, ?_⟩
  · exact (C5_start lazyInitialized.1 lazyInitialized.2).1 (by rfl) (by rfl)
  · exact ((C5_start demoInitialized.1 demoInitialized.2).2.1 (by rfl) (by rfl)
      0 (by rfl)).1
  · exact (C5_start demoConstructed.1 demoConstructed.2).2.2 (by rfl)
      demoInitialized.1 demoInitialized.2 (by rfl)

/-! ## C2: post-init binding locks

In the scenario where no configuration was bound before construction, the
constructor's `this._app.bind(key).to(options)` creates a fresh binding
object that replaces the one held in `this._optionsBinding`, so `init()`
locks the stale object while the container's actual options binding stays
unlocked. -/

/-- C2 evaluated at the failing input (a component constructed with no
previously bound configuration, then initialized): initialization succeeds,
the container's client-handle binding is locked, but the container's options
binding is not locked and a rebind of the options key succeeds; the binding
object `init()` did lock is the stale one at heap address 0, while the
registry maps the options key to the replacement object at heap address 1. -/
theorem C2_options_binding_unlocked_bug :
    demoInitialized.2.isInitialized = true
    ∧ ((demoInitialized.1.getBinding COMPONENT_CONFIG_KEY).map (fun b => b.isLocked),
       (demoInitialized.1.getBinding PRISMA_CLIENT_INSTANCE).map (fun b => b.isLocked),
       exceptOk (demoInitialized.1.bindKey COMPONENT_CONFIG_KEY)) =
      (some false, some true, true)
    ∧ ((demoInitialized.1.heapBinding demoConstructed.2.optionsBindingId).map
        (fun b => b.isLocked), demoInitialized.1.lookupId COMPONENT_CONFIG_KEY,
        demoConstructed.2.optionsBindingId) = (some true, some 1, 0) := by
  refine ⟨by rfl, by rfl, by rfl⟩

/-! ## C6: client-handle binding validation at init() -/

/-- `demoConstructed`, then an external actor binds a constant client handle
under the client key with the container's default (transient) scope, before
`init()` runs. -/
def c6World : World × PrismaComponent :=
  match demoConstructed.1.bindKey PRISMA_CLIENT_INSTANCE with
  | .ok (w, i) => (w.bindingTo i (Val.client 99), demoConstructed.2)
  | .error _ => (demoWorld, fallbackComponent)

/-- Counterexample to C6: at `init()` time a client-handle binding exists
whose scope is transient (not singleton), yet `init()` completes
successfully — the component holds no client handle, so the validation is
skipped and the binding is silently replaced. -/
theorem C6_counterexample :
    ((c6World.1.getBinding PRISMA_CLIENT_INSTANCE).map (fun b => (b.scope, b.type)),
     (PrismaComponent.init c6World.1 c6World.2).map (fun p => p.2.isInitialized)) =
    (some (BindingScope.transient, some BindingType.constant), .ok true) := by rfl

/-- C6 as amended: when the component holds a client handle and a
client-handle binding already exists, a non-singleton scope aborts `init()`
with the dedicated `PrismaClientNotSingletonError`, and a singleton scope
with a non-constant type aborts it with a generic error. -/
theorem C6_amended (w : World) (c : PrismaComponent) (pc : Nat) (b : Binding)
    (hni : c.isInitialized = false) (hpc : c.prismaClient = some pc)
    (hok : ensureNoConflictingPrismaProvidedAndBound w (some pc) = .ok ())
    (hb : w.getBinding PRISMA_CLIENT_INSTANCE = some b) :
    (b.scope ≠ .singleton → PrismaComponent.init w c = .error .prismaClientNotSingleton)
  ∧ (b.scope = .singleton → b.type ≠ some .constant →
      PrismaComponent.init w c = .error (.generic notConstantMsg)) := by
  have hstep : PrismaComponent.init w c = PrismaComponent.initFresh w c := by
    unfold PrismaComponent.init
    rw [hni]
    simp
  constructor
  · intro hsc
    rw [hstep]
    unfold PrismaComponent.initFresh
    unfold ensureValidPrismaClientBinding
    simp [hok, hpc, hb, hsc, bind, Except.bind]
  · intro hsc hty
    rw [hstep]
    unfold PrismaComponent.initFresh
    unfold ensureValidPrismaClientBinding
    simp [hok, hpc, hb, hsc, hty, bind, Except.bind]

/-- A world whose client-handle binding for client 0 is constant but
transient. -/
def c6AmendedWorld : World :=
  { bindingHeap := [{ id := 0, key := PRISMA_CLIENT_INSTANCE, type := some .constant,
                      value := some (Val.client 0), scope := .transient }]
    registry := [(PRISMA_CLIENT_INSTANCE, 0)]
    clientHeap := [{}] }

/-- A world whose client-handle binding for client 0 is singleton but not
constant. -/
def c6AmendedWorld2 : World :=
  { bindingHeap := [{ id := 0, key := PRISMA_CLIENT_INSTANCE, type := some .dynamicValue,
                      value := some (Val.client 0), scope := .singleton }]
    registry := [(PRISMA_CLIENT_INSTANCE, 0)]
    clientHeap := [{}] }

/-- A component holding client 0. -/
def c6AmendedComp : PrismaComponent := { optionsBindingId := 0, prismaClient := some 0 }

/-- Witness for the amended C6 at both error kinds. -/
theorem C6_amended_witness :
    PrismaComponent.init c6AmendedWorld c6AmendedComp = .error .prismaClientNotSingleton
    ∧ PrismaComponent.init c6AmendedWorld2 c6AmendedComp =
      .error (.generic notConstantMsg) := by
  constructor
  · exact (C6_amended c6AmendedWorld c6AmendedComp 0
      { id := 0, key := PRISMA_CLIENT_INSTANCE, type := some .constant,
        value := some (Val.client 0), scope := .transient }
      (by rfl) (by rfl) (by rfl) (by rfl)).1 (by decide)
  · exact (C6_amended c6AmendedWorld2 c6AmendedComp 0
      { id := 0, key := PRISMA_CLIENT_INSTANCE, type := some .dynamicValue,
        value := some (Val.client 0), scope := .singleton }
      (by rfl) (by rfl) (by rfl) (by rfl)).2 (by rfl) (by decide)

/-! ## C9: option merging at construction -/

/-- Every successful construction leaves `_options` equal to the supplied
options (or the defaults, when none were supplied) with only the `models`
sub-record deep-augmented. -/
theorem construct_options (w w' : World) (pc : Option Nat) (op : Option PrismaOptions)
    (c : PrismaComponent) (h : PrismaComponent.construct w pc op = .ok (w', c)) :
    c.options = augmentOptions (op.getD DEFAULT_PRISMA_OPTIONS) := by
  unfold PrismaComponent.construct at h
  simp only [bind, Except.bind, pure, Except.pure] at h
  repeat' split at h
  all_goals first
    | (obtain ⟨h1, h2⟩ := Prod.mk.inj (Except.ok.inj h); rw [← h2])
    | simp_all

/-- `x ?? a` on options: `orElse` against a `some` default. -/
theorem option_orElse_some {α : Type} (x : Option α) (a : α) :
    (x.orElse (fun _ => some a)) = some (x.getD a) := by
  cases x <;> rfl

/-- C9 as amended: construction keeps every supplied field as the caller set
it and deep-augments only the `models` sub-record — when a `models` record
is supplied, its unset `namespace`/`tags` take the defaults; an unset
`lazyConnect` and an absent `models` record are left unset, not defaulted;
the full default record is used only when no options are supplied at all. -/
theorem C9_amended (w w' : World) (pc : Option Nat) (op : Option PrismaOptions)
    (c : PrismaComponent) (h : PrismaComponent.construct w pc op = .ok (w', c)) :
    (∀ o, op = some o →
      c.options.prismaClient = o.prismaClient ∧
      c.options.lazyConnect = o.lazyConnect ∧
      (o.models = none → c.options.models = none) ∧
      (∀ m, o.models = some m →
        c.options.models = some
          { «namespace» := some (m.«namespace».getD PRISMA_MODEL_NAMESPACE)
            tags := some (m.tags.getD [PRISMA_MODEL_TAG]) }))
  ∧ (op = none → c.options = DEFAULT_PRISMA_OPTIONS) := by
  have hopts := construct_options w w' pc op c h
  constructor
  · intro o hop
    rw [hop] at hopts
    simp only [Option.getD] at hopts
    unfold augmentOptions at hopts
    refine ⟨?_, ?_, ?_, ?_⟩
    · cases hm : o.models <;> rw [hm] at hopts <;> simp [hopts]
    · cases hm : o.models <;> rw [hm] at hopts <;> simp [hopts]
    · intro hm
      rw [hm] at hopts
      simp [hopts, hm]
    · intro m hm
      rw [hm] at hopts
      rw [hopts]
      simp [option_orElse_some, DEFAULT_MODELS_OPTIONS]
  · intro hop
    rw [hop] at hopts
    rw [hopts]
    rfl

/-- Options with a custom model namespace, an unset `lazyConnect` and unset
model tags. -/
def c9Opts : PrismaOptions :=
  { prismaClient := some "datasource", lazyConnect := none,
    models := some { «namespace» := some "customNS" } }

/-- The component constructed with `c9Opts`. -/
def c9Constructed : World × PrismaComponent :=
  ((PrismaComponent.construct demoWorld none (some c9Opts)).toOption).getD
    (demoWorld, fallbackComponent)

/-- Witness for the amended C9: supplied fields kept, unset `tags`
augmented, unset `lazyConnect` left unset. -/
theorem C9_amended_witness :
    c9Constructed.2.options.prismaClient = some "datasource"
    ∧ c9Constructed.2.options.lazyConnect = none
    ∧ c9Constructed.2.options.models =
      some { «namespace» := some "customNS", tags := some [PRISMA_MODEL_TAG] } := by
  have h := (C9_amended demoWorld c9Constructed.1 none (some c9Opts)
    c9Constructed.2 (by rfl)).1 c9Opts rfl
  refine ⟨h.1, h.2.1, ?_⟩
  have h4 := h.2.2.2 { «namespace» := some "customNS" } rfl
  rw [h4]
  rfl

/-- Counterexample to C9: constructing with the supplied options `{}` leaves
`lazyConnect` unset in the effective options, although the default value of
the field is `false` — the unset field does not take its default value. -/
theorem C9_counterexample :
    (PrismaComponent.construct demoWorld none (some {})).map
      (fun p => p.2.options.lazyConnect) = .ok none
    ∧ DEFAULT_PRISMA_OPTIONS.lazyConnect = some false := ⟨by rfl, by rfl⟩

/-! ## C7: invalid post-init middleware is rejected before attachment -/

/-- C7: binding a middleware entry after `init()` (bind-event handlers
`[lockOnBind, attachOnBind]` subscribed) whose type is not constant or whose
scope is not singleton makes the bind-event handler throw the middleware
error synchronously, and no client's middleware chain changes — the entry is
rejected before `$use` runs. -/
theorem C7_reject_before_attach (w : World) (key : String) (ty : Option BindingType)
    (v : Option Val) (scope : BindingScope)
    (hh : w.viewHandlers = [BindHandler.lockOnBind, BindHandler.attachOnBind])
    (hk : w.lookupId key = none)
    (hinv : ty ≠ some BindingType.constant ∨ scope ≠ BindingScope.singleton) :
    (w.bindMiddlewareEntry key ty v scope).2 = some (.generic badMiddlewareMsg)
    ∧ (w.bindMiddlewareEntry key ty v scope).1.clientHeap = w.clientHeap := by
  have hfind : w.registry.find? (fun p => p.1 = key) = none := by
    unfold World.lookupId at hk
    exact Option.map_eq_none'.mp hk
  obtain ⟨bh, reg, ch, vh, mn⟩ := w
  simp only at hh hfind
  subst hh
  unfold World.bindMiddlewareEntry World.registerMiddlewareEntry World.newBinding
    World.modifyBinding World.setHeapBinding World.heapBinding World.addBindingId
    World.getBinding World.lookupId
  unfold emitBind runBindHandler World.lockBinding World.modifyBinding
    World.setHeapBinding World.heapBinding
  simp [hfind, hinv]
  unfold emitBind runBindHandler World.heapBinding
  simp [hinv]

/-- Witness for C7 at the demonstration scenario: a constant but transient
middleware entry after `init()`. -/
theorem C7_reject_before_attach_witness :
    (demoInitialized.1.bindMiddlewareEntry "mw.bad" (some .constant)
      (some (Val.middleware 7)) .transient).2 = some (.generic badMiddlewareMsg)
    ∧ (demoInitialized.1.bindMiddlewareEntry "mw.bad" (some .constant)
      (some (Val.middleware 7)) .transient).1.clientHeap =
        demoInitialized.1.clientHeap :=
  C7_reject_before_attach demoInitialized.1 "mw.bad" (some .constant)
    (some (Val.middleware 7)) .transient (by rfl) (by rfl) (by decide)

/-! ## Invariance lemmas for the middleware extension point

The bind-event view and its values depend only on the registry and on the
key/value/tags of heap-resident bindings; the lemmas below track them through
the world updates `init()` performs. -/


theorem modifyBinding_proj (w : World) (i : Nat) (f : Binding → Binding) :
    (w.modifyBinding i f).registry = w.registry
    ∧ (w.modifyBinding i f).clientHeap = w.clientHeap
    ∧ (w.modifyBinding i f).viewHandlers = w.viewHandlers
    ∧ (w.modifyBinding i f).modelNames = w.modelNames := by
  unfold World.modifyBinding World.setHeapBinding
  cases w.heapBinding i <;> simp

theorem heapBinding_modifyBinding (w : World) (i j : Nat) (f : Binding → Binding) :
    (w.modifyBinding i f).heapBinding j =
      if i = j then (w.heapBinding j).map f else w.heapBinding j := by
  unfold World.modifyBinding World.setHeapBinding World.heapBinding
  cases hbi : w.bindingHeap[i]? with
  | none =>
    by_cases hij : i = j
    · subst hij; simp [hbi]
    · simp [hij]
  | some b =>
    have hlen : i < w.bindingHeap.length := by
      by_contra hge
      rw [List.getElem?_len_le (Nat.le_of_not_lt hge)] at hbi
      exact Option.noConfusion hbi
    by_cases hij : i = j
    · subst hij; simp [List.getElem?_set, hbi, hlen]
    · simp [List.getElem?_set, hij, hbi]

theorem middlewareBindingIds_congr (w1 w2 : World) (hreg : w1.registry = w2.registry)
    (htags : ∀ j, (w1.heapBinding j).map (fun b => b.tags) =
                  (w2.heapBinding j).map (fun b => b.tags)) :
    w1.middlewareBindingIds = w2.middlewareBindingIds := by
  unfold World.middlewareBindingIds
  rw [hreg]
  congr 1
  apply List.filter_congr
  intro p hp
  have h := htags p.2
  cases h1 : w1.heapBinding p.2 <;> cases h2 : w2.heapBinding p.2 <;> simp_all

theorem resolveIds_congr (w1 w2 : World) (ids : List Nat)
    (hkv : ∀ j ∈ ids, (w1.heapBinding j).map (fun b => (b.key, b.value)) =
                      (w2.heapBinding j).map (fun b => (b.key, b.value))) :
    w1.resolveIds ids = w2.resolveIds ids := by
  induction ids with
  | nil => rfl
  | cons i rest ih =>
    unfold World.resolveIds
    have h := hkv i (List.mem_cons_self i rest)
    have ih' := ih (fun j hj => hkv j (List.mem_cons_of_mem i hj))
    cases h1 : w1.heapBinding i <;> cases h2 : w2.heapBinding i <;>
      rw [h1, h2] at h <;> simp_all

theorem mem_middlewareBindingIds (w : World) (i : Nat) (hi : i ∈ w.middlewareBindingIds) :
    (∃ p ∈ w.registry, p.2 = i)
    ∧ ∃ b, w.heapBinding i = some b
        ∧ b.tags.contains PRISMA_MIDDLEWARE_EXTENSION_POINT = true := by
  unfold World.middlewareBindingIds at hi
  obtain ⟨p, hp, hpi⟩ := List.mem_map.mp hi
  obtain ⟨hpmem, hpred⟩ := List.mem_filter.mp hp
  subst hpi
  refine ⟨⟨p, hpmem, rfl⟩, ?_⟩
  cases hb : w.heapBinding p.2 with
  | none => rw [hb] at hpred; simp at hpred
  | some b =>
    rw [hb] at hpred
    exact ⟨b, rfl, by simpa using hpred⟩

theorem middlewareBindingIds_lt (w : World)
    (hwf : ∀ p ∈ w.registry, p.2 < w.bindingHeap.length) :
    ∀ i ∈ w.middlewareBindingIds, i < w.bindingHeap.length := by
  intro i hi
  obtain ⟨⟨p, hp, hpi⟩, _⟩ := mem_middlewareBindingIds w i hi
  exact hpi ▸ hwf p hp

theorem mv_modifyBinding_preserving (w : World) (i : Nat) (f : Binding → Binding)
    (hf : ∀ b, (f b).key = b.key ∧ (f b).value = b.value ∧ (f b).tags = b.tags) :
    (w.modifyBinding i f).middlewareValues = w.middlewareValues := by
  unfold World.middlewareValues
  have hids : (w.modifyBinding i f).middlewareBindingIds = w.middlewareBindingIds := by
    apply middlewareBindingIds_congr
    · exact (modifyBinding_proj w i f).1
    · intro j
      rw [heapBinding_modifyBinding]
      split
      · cases w.heapBinding j with
        | none => rfl
        | some b => simp [(hf b).2.2]
      · rfl
  rw [hids]
  apply resolveIds_congr
  intro j hj
  rw [heapBinding_modifyBinding]
  split
  · cases w.heapBinding j with
    | none => rfl
    | some b => simp [(hf b).1, (hf b).2.1]
  · rfl

theorem mv_modifyBinding_untagged (w : World) (i : Nat) (f : Binding → Binding)
    (hf : ∀ b, (f b).tags = b.tags)
    (hut : ∀ b, w.heapBinding i = some b →
      b.tags.contains PRISMA_MIDDLEWARE_EXTENSION_POINT = false) :
    (w.modifyBinding i f).middlewareValues = w.middlewareValues := by
  unfold World.middlewareValues
  have hids : (w.modifyBinding i f).middlewareBindingIds = w.middlewareBindingIds := by
    apply middlewareBindingIds_congr
    · exact (modifyBinding_proj w i f).1
    · intro j
      rw [heapBinding_modifyBinding]
      split
      · cases w.heapBinding j with
        | none => rfl
        | some b => simp [hf b]
      · rfl
  rw [hids]
  apply resolveIds_congr
  intro j hj
  rw [heapBinding_modifyBinding]
  split
  next hij =>
    subst hij
    obtain ⟨_, b, hb, htag⟩ := mem_middlewareBindingIds w i hj
    rw [hut b hb] at htag
    exact absurd htag (by simp)
  next => rfl

theorem mv_append_untagged (w w' : World) (key : String) (b : Binding)
    (h1 : w'.bindingHeap = w.bindingHeap ++ [b])
    (h2 : w'.registry = w.registry ++ [(key, w.bindingHeap.length)])
    (hwf : ∀ p ∈ w.registry, p.2 < w.bindingHeap.length)
    (htag : b.tags.contains PRISMA_MIDDLEWARE_EXTENSION_POINT = false) :
    w'.middlewareValues = w.middlewareValues := by
  have hheap : ∀ j, j < w.bindingHeap.length → w'.heapBinding j = w.heapBinding j := by
    intro j hj
    unfold World.heapBinding
    rw [h1]
    exact List.getElem?_append_left hj
  have hbn : w'.heapBinding w.bindingHeap.length = some b := by
    unfold World.heapBinding
    rw [h1]
    exact List.getElem?_concat_length w.bindingHeap b
  have hids : w'.middlewareBindingIds = w.middlewareBindingIds := by
    unfold World.middlewareBindingIds
    rw [h2, List.filter_append]
    have hone : List.filter (fun p =>
        match w'.heapBinding p.2 with
        | some b => b.tags.contains PRISMA_MIDDLEWARE_EXTENSION_POINT
        | none => false) [(key, w.bindingHeap.length)] = [] := by
      simp only [List.filter, hbn, htag]
    rw [hone, List.append_nil]
    congr 1
    apply List.filter_congr
    intro p hp
    rw [hheap p.2 (hwf p hp)]
  rw [World.middlewareValues, World.middlewareValues, hids]
  apply resolveIds_congr
  intro j hj
  have hjlt : j < w.bindingHeap.length := middlewareBindingIds_lt w hwf j hj
  rw [hheap j hjlt]

theorem mv_congr_fields (w w' : World) (h1 : w'.bindingHeap = w.bindingHeap)
    (h2 : w'.registry = w.registry) : w'.middlewareValues = w.middlewareValues := by
  have hheap : ∀ j, w'.heapBinding j = w.heapBinding j := by
    intro j
    unfold World.heapBinding
    rw [h1]
  have hids : w'.middlewareBindingIds = w.middlewareBindingIds :=
    middlewareBindingIds_congr _ _ h2 (fun j => by rw [hheap j])
  rw [World.middlewareValues, World.middlewareValues, hids]
  exact resolveIds_congr _ _ _ (fun j _ => by rw [hheap j])

theorem lookupId_none_of_getBinding_none (w : World) (key : String)
    (hwf : ∀ p ∈ w.registry, p.2 < w.bindingHeap.length)
    (h : w.getBinding key = none) : w.lookupId key = none := by
  unfold World.getBinding at h
  cases hl : w.lookupId key with
  | none => rfl
  | some j =>
    rw [hl] at h
    simp only [Option.bind] at h
    have hj : j < w.bindingHeap.length := by
      unfold World.lookupId at hl
      obtain ⟨p, hp, hpj⟩ := Option.map_eq_some'.mp hl
      exact hpj ▸ hwf p (List.mem_of_find?_eq_some hp)
    unfold World.heapBinding at h
    rw [List.getElem?_eq_getElem hj] at h
    exact absurd h (by simp)

theorem bindKey_fresh (w : World) (key : String) (hk : w.lookupId key = none) :
    w.bindKey key = .ok ({ w with
      bindingHeap := w.bindingHeap ++ [{ id := w.bindingHeap.length, key := key }]
      registry := w.registry ++ [(key, w.bindingHeap.length)] }, w.bindingHeap.length) := by
  have hfind : w.registry.find? (fun p => p.1 = key) = none := by
    unfold World.lookupId at hk
    exact Option.map_eq_none'.mp hk
  unfold World.bindKey World.newBinding World.addBindingId World.getBinding
    World.heapBinding World.lookupId
  simp [hfind, bind, Except.bind, pure, Except.pure, List.getElem?_concat_length]

theorem modifyBinding_heapLength (w : World) (i : Nat) (f : Binding → Binding) :
    (w.modifyBinding i f).bindingHeap.length = w.bindingHeap.length := by
  unfold World.modifyBinding World.setHeapBinding
  cases w.heapBinding i <;> simp

theorem bindClient_facts (w : World) (cval : Val)
    (hwf : ∀ p ∈ w.registry, p.2 < w.bindingHeap.length) :
    ∀ x, x = (({ w with
        bindingHeap := w.bindingHeap ++
          [{ id := w.bindingHeap.length, key := PRISMA_CLIENT_INSTANCE }]
        registry := w.registry ++ [(PRISMA_CLIENT_INSTANCE, w.bindingHeap.length)] } :
          World).bindingTo w.bindingHeap.length cval).bindingInScope
        w.bindingHeap.length BindingScope.singleton →
      x.middlewareValues = w.middlewareValues
      ∧ x.clientHeap = w.clientHeap
      ∧ x.modelNames = w.modelNames
      ∧ x.viewHandlers = w.viewHandlers
      ∧ (∀ p ∈ x.registry, p.2 < x.bindingHeap.length) := by
  intro x hx
  set wapp : World := { w with
    bindingHeap := w.bindingHeap ++
      [{ id := w.bindingHeap.length, key := PRISMA_CLIENT_INSTANCE }]
    registry := w.registry ++ [(PRISMA_CLIENT_INSTANCE, w.bindingHeap.length)] } with hwapp
  have hfreshb : wapp.heapBinding w.bindingHeap.length =
      some { id := w.bindingHeap.length, key := PRISMA_CLIENT_INSTANCE } := by
    unfold World.heapBinding
    exact List.getElem?_concat_length w.bindingHeap _
  have e0 : wapp.middlewareValues = w.middlewareValues :=
    mv_append_untagged w wapp PRISMA_CLIENT_INSTANCE
      { id := w.bindingHeap.length, key := PRISMA_CLIENT_INSTANCE } rfl rfl hwf rfl
  have e1 : (wapp.bindingTo w.bindingHeap.length cval).middlewareValues =
      wapp.middlewareValues := by
    unfold World.bindingTo
    apply mv_modifyBinding_untagged
    · intro b
      rfl
    · intro b hb0
      rw [hfreshb] at hb0
      obtain rfl := Option.some.inj hb0
      rfl
  have e2 : x.middlewareValues =
      (wapp.bindingTo w.bindingHeap.length cval).middlewareValues := by
    rw [hx]
    unfold World.bindingInScope
    apply mv_modifyBinding_preserving
    intro b
    exact ⟨rfl, rfl, rfl⟩
  have hch : x.clientHeap = w.clientHeap := by
    rw [hx]
    unfold World.bindingInScope World.bindingTo
    rw [(modifyBinding_proj _ _ _).2.1, (modifyBinding_proj _ _ _).2.1]
  have hmn : x.modelNames = w.modelNames := by
    rw [hx]
    unfold World.bindingInScope World.bindingTo
    rw [(modifyBinding_proj _ _ _).2.2.2, (modifyBinding_proj _ _ _).2.2.2]
  have hvh : x.viewHandlers = w.viewHandlers := by
    rw [hx]
    unfold World.bindingInScope World.bindingTo
    rw [(modifyBinding_proj _ _ _).2.2.1, (modifyBinding_proj _ _ _).2.2.1]
  have hreg : x.registry = w.registry ++ [(PRISMA_CLIENT_INSTANCE, w.bindingHeap.length)] := by
    rw [hx]
    unfold World.bindingInScope World.bindingTo
    rw [(modifyBinding_proj _ _ _).1, (modifyBinding_proj _ _ _).1]
  have hlen : x.bindingHeap.length = w.bindingHeap.length + 1 := by
    rw [hx]
    unfold World.bindingInScope World.bindingTo
    rw [modifyBinding_heapLength, modifyBinding_heapLength]
    simp [hwapp]
  refine ⟨e2.trans (e1.trans e0), hch, hmn, hvh, ?_⟩
  intro p hp
  rw [hreg] at hp
  rw [hlen]
  rcases List.mem_append.mp hp with hp1 | hp2
  · exact Nat.lt_succ_of_lt (hwf p hp1)
  · simp at hp2
    rw [hp2]
    exact Nat.lt_succ_self _

theorem ensureValid_facts (pc : Nat) (w w' : World)
    (hwf : ∀ p ∈ w.registry, p.2 < w.bindingHeap.length)
    (h : ensureValidPrismaClientBinding pc w = .ok w') :
    w'.middlewareValues = w.middlewareValues
    ∧ w'.clientHeap = w.clientHeap
    ∧ w'.modelNames = w.modelNames
    ∧ w'.viewHandlers = w.viewHandlers
    ∧ (∀ p ∈ w'.registry, p.2 < w'.bindingHeap.length) := by
  unfold ensureValidPrismaClientBinding at h
  split at h
  next hb =>
    have hk := lookupId_none_of_getBinding_none w PRISMA_CLIENT_INSTANCE hwf hb
    rw [bindKey_fresh w PRISMA_CLIENT_INSTANCE hk] at h
    simp only [bind, Except.bind, pure, Except.pure, Except.ok.injEq] at h
    exact bindClient_facts w (Val.client pc) hwf w' h.symm
  next b hb =>
    split at h
    · exact absurd h (by simp)
    · split at h
      · exact absurd h (by simp)
      · obtain rfl := Except.ok.inj h
        exact ⟨rfl, rfl, rfl, rfl, hwf⟩

theorem clientUse_facts (w : World) (cid : Nat) (v : Val) (hcv : cid < w.clientHeap.length) :
    (w.clientUse cid v).chainOf cid = w.chainOf cid ++ [v]
    ∧ (w.clientUse cid v).clientHeap.length = w.clientHeap.length := by
  obtain ⟨cs, hcs⟩ : ∃ cs, w.clientHeap[cid]? = some cs :=
    Option.isSome_iff_exists.mp (by simp [List.getElem?_eq_getElem hcv])
  unfold World.clientUse World.modifyClient World.chainOf
  rw [hcs]
  constructor
  · simp [List.getElem?_set, hcv, hcs]
  · simp

theorem chainOf_foldl_use (cid : Nat) :
    ∀ (mids : List Val) (w : World), cid < w.clientHeap.length →
      (mids.foldl (fun w v => w.clientUse cid v) w).chainOf cid = w.chainOf cid ++ mids
      ∧ (mids.foldl (fun w v => w.clientUse cid v) w).clientHeap.length =
        w.clientHeap.length := by
  intro mids
  induction mids with
  | nil =>
    intro w h
    simp
  | cons v rest ih =>
    intro w h
    simp only [List.foldl_cons]
    obtain ⟨h1, h2⟩ := clientUse_facts w cid v h
    obtain ⟨ih1, ih2⟩ := ih (w.clientUse cid v) (h2 ▸ h)
    constructor
    · rw [ih1, h1]
      simp
    · rw [ih2, h2]

theorem addBindingId_facts (w w' : World) (i : Nat) (h : w.addBindingId i = .ok w') :
    w'.bindingHeap = w.bindingHeap ∧ w'.clientHeap = w.clientHeap
    ∧ w'.viewHandlers = w.viewHandlers ∧ w'.modelNames = w.modelNames := by
  unfold World.addBindingId at h
  split at h
  · exact absurd h (by simp)
  · split at h
    · split at h
      · exact absurd h (by simp)
      · obtain rfl := Except.ok.inj h
        exact ⟨rfl, rfl, rfl, rfl⟩
    · obtain rfl := Except.ok.inj h
      exact ⟨rfl, rfl, rfl, rfl⟩

theorem createBinding_proj (w : World) (v : Val) (name : String) :
    (createBindingFromPrismaModelName w v name).1.clientHeap = w.clientHeap
    ∧ (createBindingFromPrismaModelName w v name).1.viewHandlers = w.viewHandlers
    ∧ (createBindingFromPrismaModelName w v name).1.modelNames = w.modelNames
    ∧ (createBindingFromPrismaModelName w v name).1.registry = w.registry := by
  unfold createBindingFromPrismaModelName World.bindingTag World.bindingTo World.newBinding
  refine ⟨?_, ?_, ?_, ?_⟩
  · rw [(modifyBinding_proj _ _ _).2.1, (modifyBinding_proj _ _ _).2.1]
  · rw [(modifyBinding_proj _ _ _).2.2.1, (modifyBinding_proj _ _ _).2.2.1]
  · rw [(modifyBinding_proj _ _ _).2.2.2, (modifyBinding_proj _ _ _).2.2.2]
  · rw [(modifyBinding_proj _ _ _).1, (modifyBinding_proj _ _ _).1]

theorem bindModels_clientHeap (cid : Nat) :
    ∀ (names : List String) (w w' : World), bindModels w cid names = .ok w' →
      w'.clientHeap = w.clientHeap := by
  intro names
  induction names with
  | nil =>
    intro w w' h
    obtain rfl := Except.ok.inj h
    rfl
  | cons name rest ih =>
    intro w w' h
    unfold bindModels at h
    simp only [bind, Except.bind] at h
    cases hadd : ((createBindingFromPrismaModelName w
        (Val.modelAccessor cid name.toLower) name).1.lockBinding
        (createBindingFromPrismaModelName w
          (Val.modelAccessor cid name.toLower) name).2).addBindingId
        (createBindingFromPrismaModelName w (Val.modelAccessor cid name.toLower) name).2 with
    | error e =>
      rw [hadd] at h
      exact absurd h (by simp)
    | ok w3 =>
      rw [hadd] at h
      have hih := ih w3 w' h
      have ha := (addBindingId_facts _ _ _ hadd).2.1
      rw [hih, ha]
      unfold World.lockBinding
      rw [(modifyBinding_proj _ _ _).2.1]
      exact (createBinding_proj w (Val.modelAccessor cid name.toLower) name).1

theorem mv_lockBinding (w : World) (i : Nat) :
    (w.lockBinding i).middlewareValues = w.middlewareValues := by
  unfold World.lockBinding
  exact mv_modifyBinding_preserving w i _ (fun b => ⟨rfl, rfl, rfl⟩)

theorem lockBinding_clientHeap (w : World) (i : Nat) :
    (w.lockBinding i).clientHeap = w.clientHeap := by
  unfold World.lockBinding
  exact (modifyBinding_proj _ _ _).2.1

theorem chainOf_congr (w1 w2 : World) (h : w1.clientHeap = w2.clientHeap) (cid : Nat) :
    w1.chainOf cid = w2.chainOf cid := by
  unfold World.chainOf
  rw [h]

theorem init_attaches_backlog (w w' : World) (c c' : PrismaComponent) (mids : List Val)
    (cid : Nat)
    (hwf : ∀ p ∈ w.registry, p.2 < w.bindingHeap.length)
    (hnone : c.prismaClient = none → w.lookupId PRISMA_CLIENT_INSTANCE = none)
    (hcv : ∀ pc, c.prismaClient = some pc → pc < w.clientHeap.length)
    (hni : c.isInitialized = false)
    (hinit : PrismaComponent.init w c = .ok (w', c'))
    (hmids : w.middlewareValues = .ok mids)
    (hcid : c'.prismaClient = some cid) :
    w'.chainOf cid = w.chainOf cid ++ mids := by
  rw [show PrismaComponent.init w c = PrismaComponent.initFresh w c from by
    unfold PrismaComponent.init; rw [hni]; simp] at hinit
  unfold PrismaComponent.initFresh at hinit
  simp only [bind, Except.bind, pure, Except.pure] at hinit
  cases hens : ensureNoConflictingPrismaProvidedAndBound w c.prismaClient with
  | error e => rw [hens] at hinit; simp at hinit
  | ok u =>
  rw [hens] at hinit
  simp only [] at hinit
  cases hpc : c.prismaClient with
  | some pc =>
    rw [hpc] at hinit
    simp only [] at hinit
    cases hval : ensureValidPrismaClientBinding pc w with
    | error e => rw [hval] at hinit; simp at hinit
    | ok v2 =>
    rw [hval] at hinit
    simp only [] at hinit
    cases hpcb : v2.lookupId PRISMA_CLIENT_INSTANCE with
    | none => rw [hpcb] at hinit; simp at hinit
    | some pcb =>
    rw [hpcb] at hinit
    simp only [] at hinit
    cases hmv : ((v2.lockBinding c.optionsBindingId).lockBinding pcb).middlewareValues with
    | error e => rw [hmv] at hinit; simp at hinit
    | ok mids0 =>
    rw [hmv] at hinit
    simp only [] at hinit
    split at hinit
    next e heqbm => simp at hinit
    next wfin heqbm =>
      obtain ⟨h1, h2⟩ := Prod.mk.inj (Except.ok.inj hinit)
      have hpceq : pc = cid := by
        rw [← h2] at hcid
        simpa using hcid
      obtain rfl := hpceq
      have f2 := ensureValid_facts pc w v2 hwf hval
      have fmv : ((v2.lockBinding c.optionsBindingId).lockBinding pcb).middlewareValues =
          w.middlewareValues := by
        rw [mv_lockBinding, mv_lockBinding, f2.1]
      have hmids0 : mids0 = mids := by
        rw [fmv, hmids] at hmv
        exact (Except.ok.inj hmv).symm
      have hch : ((v2.lockBinding c.optionsBindingId).lockBinding pcb).clientHeap =
          w.clientHeap := by
        rw [lockBinding_clientHeap, lockBinding_clientHeap, f2.2.1]
      have hclt : pc < ((v2.lockBinding c.optionsBindingId).lockBinding pcb).clientHeap.length := by
        rw [hch]
        exact hcv pc hpc
      obtain ⟨hf1, hf2⟩ := chainOf_foldl_use pc mids0
        ((v2.lockBinding c.optionsBindingId).lockBinding pcb) hclt
      have hbmch := bindModels_clientHeap pc _ _ wfin heqbm
      rw [← h1]
      have hstep1 : wfin.chainOf pc =
          (List.foldl (fun w v => w.clientUse pc v)
            ((v2.lockBinding c.optionsBindingId).lockBinding pcb) mids0).chainOf pc :=
        chainOf_congr _ _ (by rw [hbmch]) pc
      rw [hstep1, hf1, hmids0, chainOf_congr _ _ hch pc]
  | none =>
    rw [hpc] at hinit
    simp only [] at hinit
    have hk := hnone hpc
    cases hcfg : w.getSync COMPONENT_CONFIG_KEY with
    | none => rw [hcfg] at hinit; simp at hinit
    | some vv =>
    rw [hcfg] at hinit
    cases vv with
    | client i => simp at hinit
    | middleware i => simp at hinit
    | modelAccessor a b => simp at hinit
    | options o =>
    simp only [] at hinit
    have hk1 : (w.newClient o.prismaClient).1.lookupId PRISMA_CLIENT_INSTANCE = none := hk
    rw [bindKey_fresh (w.newClient o.prismaClient).1 PRISMA_CLIENT_INSTANCE hk1] at hinit
    simp only [] at hinit
    set w1 : World := (w.newClient o.prismaClient).1 with hw1
    set ncid : Nat := (w.newClient o.prismaClient).2 with hncid
    set wapp : World := { bindingHeap := w1.bindingHeap ++ [{ id := w1.bindingHeap.length, key := PRISMA_CLIENT_INSTANCE }], registry := w1.registry ++ [(PRISMA_CLIENT_INSTANCE, w1.bindingHeap.length)], clientHeap := w1.clientHeap, viewHandlers := w1.viewHandlers, modelNames := w1.modelNames } with hwapp
    set x : World := (wapp.bindingTo w1.bindingHeap.length (Val.client ncid)).bindingInScope w1.bindingHeap.length BindingScope.singleton with hx
    have hwf1 : ∀ p ∈ w1.registry, p.2 < w1.bindingHeap.length := hwf
    have hregx : x.registry = w1.registry ++ [(PRISMA_CLIENT_INSTANCE, w1.bindingHeap.length)] := by
      rw [hx]
      unfold World.bindingInScope World.bindingTo
      rw [(modifyBinding_proj _ _ _).1, (modifyBinding_proj _ _ _).1]
    have hfindn : w1.registry.find? (fun p => p.1 = PRISMA_CLIENT_INSTANCE) = none :=
      Option.map_eq_none'.mp hk1
    have hlkx : x.lookupId PRISMA_CLIENT_INSTANCE = some w1.bindingHeap.length := by
      unfold World.lookupId
      rw [hregx, List.find?_append, hfindn]
      simp [List.find?]
    rw [hlkx] at hinit
    simp only [] at hinit
    cases hmv : ((x.lockBinding c.optionsBindingId).lockBinding
        w1.bindingHeap.length).middlewareValues with
    | error e => rw [hmv] at hinit; simp at hinit
    | ok mids0 =>
    rw [hmv] at hinit
    simp only [] at hinit
    split at hinit
    next e heqbm => simp at hinit
    next wfin heqbm =>
      obtain ⟨h1, h2⟩ := Prod.mk.inj (Except.ok.inj hinit)
      have hcideq : ncid = cid := by
        rw [← h2] at hcid
        simpa using hcid
      obtain rfl := hcideq
      have fx := bindClient_facts w1 (Val.client ncid) hwf1 x (by rw [hx, hwapp])
      have fmvw1 : w1.middlewareValues = w.middlewareValues :=
        mv_congr_fields w w1 rfl rfl
      have fmv : ((x.lockBinding c.optionsBindingId).lockBinding
          w1.bindingHeap.length).middlewareValues = w.middlewareValues := by
        rw [mv_lockBinding, mv_lockBinding, fx.1, fmvw1]
      have hmids0 : mids0 = mids := by
        rw [fmv, hmids] at hmv
        exact (Except.ok.inj hmv).symm
      have hch : ((x.lockBinding c.optionsBindingId).lockBinding
          w1.bindingHeap.length).clientHeap = w1.clientHeap := by
        rw [lockBinding_clientHeap, lockBinding_clientHeap, fx.2.1]
      have hw1ch : w1.clientHeap = w.clientHeap ++ [{ ctorOptions := o.prismaClient }] := rfl
      have hclt : ncid < ((x.lockBinding c.optionsBindingId).lockBinding
          w1.bindingHeap.length).clientHeap.length := by
        rw [hch, hw1ch, hncid]
        simp [World.newClient]
      obtain ⟨hf1, hf2⟩ := chainOf_foldl_use ncid mids0
        ((x.lockBinding c.optionsBindingId).lockBinding w1.bindingHeap.length) hclt
      have hbmch := bindModels_clientHeap ncid _ _ wfin heqbm
      rw [← h1]
      have hstep1 : wfin.chainOf ncid =
          (List.foldl (fun w v => w.clientUse ncid v)
            ((x.lockBinding c.optionsBindingId).lockBinding w1.bindingHeap.length)
            mids0).chainOf ncid :=
        chainOf_congr _ _ (by rw [hbmch]) ncid
      have hchain1 : ((x.lockBinding c.optionsBindingId).lockBinding
          w1.bindingHeap.length).chainOf ncid = [] := by
        rw [chainOf_congr _ _ hch ncid]
        unfold World.chainOf
        rw [hw1ch, hncid]
        simp [World.newClient, List.getElem?_concat_length]
      have hchainw : w.chainOf ncid = [] := by
        unfold World.chainOf
        rw [hncid]
        simp [World.newClient, List.getElem?_len_le]
      rw [hstep1, hf1, hmids0, hchain1, hchainw]

/-! ## C4: middleware attachment ordering -/

/-- A valid (constant, singleton) middleware entry bound after `init()`: the
registration succeeds, the bind event runs the lock handler first and the
attach handler second, the binding is already locked while the client's chain
is still unchanged, and the final state has the entry both locked and
attached. -/
theorem postInitMiddleware_facts (w : World) (key : String) (v : Val) (cid : Nat)
    (hh : w.viewHandlers = [BindHandler.lockOnBind, BindHandler.attachOnBind])
    (hk : w.lookupId key = none)
    (hcl : w.getSync PRISMA_CLIENT_INSTANCE = some (Val.client cid))
    (hwf : ∀ p ∈ w.registry, p.2 < w.bindingHeap.length)
    (hcv : cid < w.clientHeap.length) :
    (w.registerMiddlewareEntry key (some .constant) (some v) .singleton).2.2 = none
    ∧ emitBindTrace (w.registerMiddlewareEntry key (some .constant) (some v) .singleton).1.viewHandlers
        (w.registerMiddlewareEntry key (some .constant) (some v) .singleton).1
        (w.registerMiddlewareEntry key (some .constant) (some v) .singleton).2.1 =
      [(w.registerMiddlewareEntry key (some .constant) (some v) .singleton).1,
       (w.registerMiddlewareEntry key (some .constant) (some v) .singleton).1.lockBinding
         (w.registerMiddlewareEntry key (some .constant) (some v) .singleton).2.1,
       ((w.registerMiddlewareEntry key (some .constant) (some v) .singleton).1.lockBinding
         (w.registerMiddlewareEntry key (some .constant) (some v) .singleton).2.1).clientUse cid v]
    ∧ w.bindMiddlewareEntry key (some .constant) (some v) .singleton =
      (((w.registerMiddlewareEntry key (some .constant) (some v) .singleton).1.lockBinding
         (w.registerMiddlewareEntry key (some .constant) (some v) .singleton).2.1).clientUse cid v, none)
    ∧ (((w.registerMiddlewareEntry key (some .constant) (some v) .singleton).1.lockBinding
         (w.registerMiddlewareEntry key (some .constant) (some v) .singleton).2.1).getBinding key).map
        (fun b => b.isLocked) = some true
    ∧ ((w.registerMiddlewareEntry key (some .constant) (some v) .singleton).1.lockBinding
         (w.registerMiddlewareEntry key (some .constant) (some v) .singleton).2.1).chainOf cid =
      w.chainOf cid
    ∧ (w.bindMiddlewareEntry key (some .constant) (some v) .singleton).1.chainOf cid =
      w.chainOf cid ++ [v] := by
  have hfind : w.registry.find? (fun p => p.1 = key) = none := by
    unfold World.lookupId at hk
    exact Option.map_eq_none'.mp hk
  have hclfacts : ∃ pr bc, w.registry.find? (fun p => p.1 = PRISMA_CLIENT_INSTANCE) = some pr
      ∧ w.bindingHeap[pr.2]? = some bc ∧ bc.value = some (Val.client cid) := by
    unfold World.getSync World.getBinding World.lookupId World.heapBinding at hcl
    cases hpr : w.registry.find? (fun p => p.1 = PRISMA_CLIENT_INSTANCE) with
    | none => rw [hpr] at hcl; simp at hcl
    | some pr =>
      rw [hpr] at hcl
      simp only [Option.map_some', Option.bind] at hcl
      cases hbc : w.bindingHeap[pr.2]? with
      | none => rw [hbc] at hcl; simp at hcl
      | some bc =>
        rw [hbc] at hcl
        simp only [] at hcl
        exact ⟨pr, bc, rfl, hbc, hcl⟩
  obtain ⟨pr, bc, hpr, hbc, hbv⟩ := hclfacts
  have hprlt : pr.2 < w.bindingHeap.length := hwf pr (List.mem_of_find?_eq_some hpr)
  obtain ⟨cs, hcs⟩ : ∃ cs, w.clientHeap[cid]? = some cs :=
    Option.isSome_iff_exists.mp (by simp [List.getElem?_eq_getElem hcv])
  obtain ⟨bh, reg, ch, vh, mn⟩ := w
  simp only at hh hfind hpr hbc hcs hprlt
  subst hh
  unfold World.registerMiddlewareEntry World.bindMiddlewareEntry World.newBinding
    World.modifyBinding World.setHeapBinding World.heapBinding World.addBindingId
    World.getBinding World.lookupId
  unfold emitBind emitBindTrace runBindHandler World.lockBinding World.modifyBinding
    World.setHeapBinding World.heapBinding
  simp [hfind, hpr, List.find?_append, Option.or]
  unfold World.registerMiddlewareEntry World.newBinding World.modifyBinding
    World.setHeapBinding World.heapBinding World.addBindingId World.getBinding
    World.lookupId
  simp [hfind, hpr, List.find?_append, Option.or]
  unfold emitBindTrace emitBind runBindHandler World.heapBinding World.getSync
    World.getBinding World.lookupId World.clientUse World.modifyClient World.chainOf
  simp [hfind, hpr, List.find?_append, Option.or, hbc, hbv, hcs, hprlt, hcv,
    List.getElem?_append_left, List.getElem?_set]
  unfold World.heapBinding
  simp [hbc, hbv, hcs, hprlt, hcv, List.getElem?_append_left, List.getElem?_set]
  unfold emitBindTrace emitBind
  simp [hcs, hcv, List.getElem?_set]

/-- C4 as amended: (i) every middleware value contributed to the extension
point before `init()` is attached to the client during `init()`, appended to
the client's chain in registration order; (ii) a middleware entry bound
after `init()` is locked immediately upon binding and then attached — the
constructor's lock handler runs before `init()`'s attach handler, so the
binding is already locked while the chain is still unchanged, and on success
the entry ends both attached and locked. -/
theorem C4_amended :
    (∀ (w w' : World) (c c' : PrismaComponent) (mids : List Val) (cid : Nat),
      (∀ p ∈ w.registry, p.2 < w.bindingHeap.length) →
      (c.prismaClient = none → w.lookupId PRISMA_CLIENT_INSTANCE = none) →
      (∀ pc, c.prismaClient = some pc → pc < w.clientHeap.length) →
      c.isInitialized = false →
      PrismaComponent.init w c = .ok (w', c') →
      w.middlewareValues = .ok mids →
      c'.prismaClient = some cid →
      w'.chainOf cid = w.chainOf cid ++ mids)
  ∧ (∀ (w : World) (key : String) (v : Val) (cid : Nat),
      w.viewHandlers = [BindHandler.lockOnBind, BindHandler.attachOnBind] →
      w.lookupId key = none →
      w.getSync PRISMA_CLIENT_INSTANCE = some (Val.client cid) →
      (∀ p ∈ w.registry, p.2 < w.bindingHeap.length) →
      cid < w.clientHeap.length →
      (w.bindMiddlewareEntry key (some .constant) (some v) .singleton =
        (((w.registerMiddlewareEntry key (some .constant) (some v) .singleton).1.lockBinding
          (w.registerMiddlewareEntry key (some .constant) (some v) .singleton).2.1).clientUse cid v,
          none)
      ∧ (((w.registerMiddlewareEntry key (some .constant) (some v) .singleton).1.lockBinding
          (w.registerMiddlewareEntry key (some .constant) (some v) .singleton).2.1).getBinding
            key).map (fun b => b.isLocked) = some true
      ∧ ((w.registerMiddlewareEntry key (some .constant) (some v) .singleton).1.lockBinding
          (w.registerMiddlewareEntry key (some .constant) (some v) .singleton).2.1).chainOf cid =
        w.chainOf cid
      ∧ (w.bindMiddlewareEntry key (some .constant) (some v) .singleton).1.chainOf cid =
        w.chainOf cid ++ [v])) := by
  constructor
  · intro w w' c c' mids cid h1 h2 h3 h4 h5 h6 h7
    exact init_attaches_backlog w w' c c' mids cid h1 h2 h3 h4 h5 h6 h7
  · intro w key v cid h1 h2 h3 h4 h5
    obtain ⟨_, _, f3, f4, f5, f6⟩ := postInitMiddleware_facts w key v cid h1 h2 h3 h4 h5
    exact ⟨f3, f4, f5, f6⟩

/-- `demoInitialized`, after a valid middleware entry for `Val.middleware 30`
has been registered (but before its bind event runs). -/
def c4Registered : World × Nat :=
  match demoInitialized.1.registerMiddlewareEntry "mw.c" (some .constant)
    (some (Val.middleware 30)) .singleton with
  | (w3, i, none) => (w3, i)
  | (_, _, some _) => (demoWorld, 0)

/-- The worlds observed while the bind event for `c4Registered` runs. -/
def c4Trace : List World :=
  emitBindTrace c4Registered.1.viewHandlers c4Registered.1 c4Registered.2

/-- Counterexample to C4 as stated: for a middleware entry bound after
`init()`, the per-state (locked?, attached?) observations over the bind
event are `(false, false)`, `(true, false)`, `(true, true)` — the binding is
locked strictly before the middleware is attached, and at no point is the
middleware attached while its binding is unlocked, contradicting "attach
happens before the lock takes effect". -/
theorem C4_counterexample :
    c4Trace.map (fun wi => (((wi.getBinding "mw.c").map (fun b => b.isLocked)).getD false,
      decide (wi.chainOf 0 = demoInitialized.1.chainOf 0 ++ [Val.middleware 30])))
    = [(false, false), (true, false), (true, true)] := by rfl

/-- `demoWorld` constructed, then two middleware entries contributed before
`init()`. -/
def preMidWorld : World × PrismaComponent :=
  match PrismaComponent.construct demoWorld none none with
  | .ok (w, c) =>
    (match w.bindMiddlewareEntry "mw.a" (some .constant) (some (Val.middleware 10)) .singleton with
     | (w, none) =>
       (match w.bindMiddlewareEntry "mw.b" (some .constant) (some (Val.middleware 20)) .singleton with
        | (w, none) => (w, c)
        | (_, some _) => (demoWorld, fallbackComponent))
     | (_, some _) => (demoWorld, fallbackComponent))
  | .error _ => (demoWorld, fallbackComponent)

/-- `preMidWorld` after `init()`. -/
def preMidInit : World × PrismaComponent :=
  ((PrismaComponent.init preMidWorld.1 preMidWorld.2).toOption).getD
    (demoWorld, fallbackComponent)

/-- Witness for the amended C4: the two middleware values registered before
`init()` end attached in registration order, and a middleware entry bound
after `init()` is locked with the chain unchanged before its attachment
lands. -/
theorem C4_amended_witness :
    preMidInit.1.chainOf 0 =
      preMidWorld.1.chainOf 0 ++ [Val.middleware 10, Val.middleware 20]
    ∧ (demoInitialized.1.bindMiddlewareEntry "mw.c" (some .constant)
        (some (Val.middleware 30)) .singleton).1.chainOf 0 =
      demoInitialized.1.chainOf 0 ++ [Val.middleware 30]
    ∧ ((demoInitialized.1.registerMiddlewareEntry "mw.c" (some .constant)
        (some (Val.middleware 30)) .singleton).1.lockBinding
        (demoInitialized.1.registerMiddlewareEntry "mw.c" (some .constant)
          (some (Val.middleware 30)) .singleton).2.1).chainOf 0 =
      demoInitialized.1.chainOf 0 := by
  refine ⟨?_, ?_, ?_⟩
  · exact C4_amended.1 preMidWorld.1 preMidInit.1 preMidWorld.2 preMidInit.2
      [Val.middleware 10, Val.middleware 20] 0 (by decide)
      (fun _ => by rfl)
      (fun pc h => by
        rw [show preMidWorld.2.prismaClient = none from rfl] at h
        exact Option.noConfusion h)
      (by rfl) (by rfl) (by rfl) (by rfl)
  · exact (C4_amended.2 demoInitialized.1 "mw.c" (Val.middleware 30) 0
      (by rfl) (by rfl) (by rfl) (by decide) (by decide)).2.2.2
  · exact (C4_amended.2 demoInitialized.1 "mw.c" (Val.middleware 30) 0
      (by rfl) (by rfl) (by rfl) (by decide) (by decide)).2.2.1

/-! ## C8/C10: model-accessor bindings -/

/-- Model binding keys are injective in the model name. -/
theorem modelKey_inj (a b : String)
    (h : PRISMA_MODEL_NAMESPACE ++ "." ++ a = PRISMA_MODEL_NAMESPACE ++ "." ++ b) :
    a = b := by
  apply String.ext
  have h2 := congrArg String.data h
  simp only [String.data_append, List.append_assoc] at h2
  exact List.append_cancel_left (List.append_cancel_left h2)

/-- Re-pointing a registry key at a new address: looking the key up finds the
new address exactly when the key was registered. -/
theorem find?_mapReplace_self (reg : List (String × Nat)) (key : String) (i : Nat) :
    (reg.map (fun p => if p.1 = key then (key, i) else p)).find? (fun p => p.1 = key) =
      if (reg.find? (fun p => p.1 = key)).isSome then some (key, i) else none := by
  induction reg with
  | nil => rfl
  | cons q rest ih =>
    by_cases hq : q.1 = key
    · simp only [List.map_cons, if_pos hq]
      rw [List.find?_cons_of_pos _ (by simp), List.find?_cons_of_pos _ (by simp [hq])]
      simp
    · simp only [List.map_cons, if_neg hq]
      rw [List.find?_cons_of_neg _ (by simp [hq]), List.find?_cons_of_neg _ (by simp [hq])]
      exact ih

/-- Re-pointing one registry key leaves lookups of other keys unchanged. -/
theorem find?_mapReplace_ne (reg : List (String × Nat)) (key key' : String) (i : Nat)
    (hne : key' ≠ key) :
    (reg.map (fun p => if p.1 = key' then (key', i) else p)).find? (fun p => p.1 = key) =
      reg.find? (fun p => p.1 = key) := by
  induction reg with
  | nil => rfl
  | cons q rest ih =>
    by_cases hq : q.1 = key'
    · simp only [List.map_cons, if_pos hq]
      rw [List.find?_cons_of_neg _ (by simp [hne]),
        List.find?_cons_of_neg _ (by simp [hq, hne])]
      exact ih
    · simp only [List.map_cons, if_neg hq]
      by_cases hqk : q.1 = key
      · rw [List.find?_cons_of_pos _ (by simp [hqk]), List.find?_cons_of_pos _ (by simp [hqk])]
      · rw [List.find?_cons_of_neg _ (by simp [hqk]), List.find?_cons_of_neg _ (by simp [hqk])]
        exact ih

/-- One iteration of the model-binding loop: the registry stays
heap-consistent, the model key now resolves to the locked, tagged, constant
accessor binding, bindings under other keys are untouched, client and model
state are untouched — and the iteration only succeeds when no locked binding
already held the model key. -/
theorem modelIteration_facts (w : World) (cid : Nat) (name : String) (w3 : World)
    (hwf : ∀ p ∈ w.registry, p.2 < w.bindingHeap.length)
    (hstep : ((createBindingFromPrismaModelName w (Val.modelAccessor cid name.toLower) name).1.lockBinding
        (createBindingFromPrismaModelName w (Val.modelAccessor cid name.toLower) name).2).addBindingId
        (createBindingFromPrismaModelName w (Val.modelAccessor cid name.toLower) name).2 = .ok w3) :
    (∀ p ∈ w3.registry, p.2 < w3.bindingHeap.length)
    ∧ w3.getBinding (PRISMA_MODEL_NAMESPACE ++ "." ++ name) = some
        { id := w.bindingHeap.length, key := PRISMA_MODEL_NAMESPACE ++ "." ++ name,
          type := some .constant, value := some (Val.modelAccessor cid name.toLower),
          scope := .transient, tags := [PRISMA_MODEL_TAG], isLocked := true }
    ∧ (∀ key b, key ≠ PRISMA_MODEL_NAMESPACE ++ "." ++ name →
        w.getBinding key = some b → w3.getBinding key = some b)
    ∧ w3.modelNames = w.modelNames ∧ w3.clientHeap = w.clientHeap
    ∧ (∀ b, w.getBinding (PRISMA_MODEL_NAMESPACE ++ "." ++ name) = some b →
        b.isLocked = false) := by
  obtain ⟨bh, reg, ch, vh, mn⟩ := w
  simp only at hwf hstep
  unfold createBindingFromPrismaModelName World.newBinding World.bindingTo
    World.bindingTag World.lockBinding World.modifyBinding World.setHeapBinding
    World.heapBinding World.addBindingId World.getBinding World.lookupId
    at hstep
  simp [List.getElem?_concat_length, List.getElem?_set] at hstep
  unfold World.heapBinding at hstep
  simp only [List.getElem?_concat_length] at hstep
  cases hf : reg.find? (fun p => p.1 = (PRISMA_MODEL_NAMESPACE ++ "." ++ name)) with
  | none =>
    rw [hf] at hstep
    simp only [Option.map_none', Option.bind] at hstep
    obtain rfl := Except.ok.inj hstep
    refine ⟨?_, ?_, ?_, rfl, rfl, ?_⟩
    · intro p hp
      simp only [List.length_append, List.length_cons, List.length_nil] at hp ⊢
      rcases List.mem_append.mp hp with h1 | h2
      · exact Nat.lt_succ_of_lt (hwf p h1)
      · simp at h2
        rw [h2]
        exact Nat.lt_succ_self _
    · unfold World.getBinding World.lookupId World.heapBinding
      simp only [List.find?_append, hf, Option.or]
      simp [List.find?, List.getElem?_concat_length]
    · intro key b hne hgb
      unfold World.getBinding World.lookupId World.heapBinding at hgb ⊢
      cases hfk : reg.find? (fun p => p.1 = key) with
      | none => rw [hfk] at hgb; simp at hgb
      | some p =>
        rw [hfk] at hgb
        simp only [Option.map_some', Option.bind] at hgb
        have hplt : p.2 < bh.length := hwf p (List.mem_of_find?_eq_some hfk)
        simp only [List.find?_append, hfk, Option.or, Option.map_some', Option.bind]
        rw [List.getElem?_append_left hplt]
        exact hgb
    · intro b hb
      unfold World.getBinding World.lookupId at hb
      rw [hf] at hb
      simp at hb
  | some q =>
    rw [hf] at hstep
    simp only [Option.map_some', Option.bind] at hstep
    have hqlt : q.2 < bh.length := hwf q (List.mem_of_find?_eq_some hf)
    rw [List.getElem?_append_left hqlt] at hstep
    cases hold : bh[q.2]? with
    | none =>
      rw [List.getElem?_eq_getElem hqlt] at hold
      exact absurd hold (by simp)
    | some oldb =>
      rw [hold] at hstep
      simp only [] at hstep
      by_cases hlk : oldb.isLocked = true
      · rw [if_pos hlk] at hstep
        exact absurd hstep (by simp)
      · rw [if_neg hlk] at hstep
        obtain rfl := Except.ok.inj hstep
        refine ⟨?_, ?_, ?_, rfl, rfl, ?_⟩
        · intro p hp
          simp only [List.length_append, List.length_cons, List.length_nil] at hp ⊢
          obtain ⟨r, hr, hre⟩ := List.mem_map.mp hp
          by_cases hrk : r.1 = PRISMA_MODEL_NAMESPACE ++ "." ++ name
          · rw [if_pos hrk] at hre
            rw [← hre]
            exact Nat.lt_succ_self _
          · rw [if_neg hrk] at hre
            rw [← hre]
            exact Nat.lt_succ_of_lt (hwf r hr)
        · unfold World.getBinding World.lookupId World.heapBinding
          rw [find?_mapReplace_self, hf]
          simp [List.getElem?_concat_length]
        · intro key b hne hgb
          unfold World.getBinding World.lookupId World.heapBinding at hgb ⊢
          rw [find?_mapReplace_ne reg key (PRISMA_MODEL_NAMESPACE ++ "." ++ name)
            bh.length (fun h => hne h.symm)]
          cases hfk : reg.find? (fun p => p.1 = key) with
          | none => rw [hfk] at hgb; simp at hgb
          | some p =>
            rw [hfk] at hgb
            simp only [Option.map_some', Option.bind] at hgb
            have hplt : p.2 < bh.length := hwf p (List.mem_of_find?_eq_some hfk)
            simp only [Option.map_some', Option.bind]
            rw [List.getElem?_append_left hplt]
            exact hgb
        · intro b hb
          unfold World.getBinding World.lookupId World.heapBinding at hb
          rw [hf] at hb
          simp only [Option.map_some', Option.bind] at hb
          rw [hold] at hb
          obtain rfl := Option.some.inj hb
          exact Bool.not_eq_true _ |>.mp hlk

/-- `$use` only touches the client heap. -/
theorem clientUse_proj (w : World) (cid : Nat) (v : Val) :
    (w.clientUse cid v).bindingHeap = w.bindingHeap
    ∧ (w.clientUse cid v).registry = w.registry
    ∧ (w.clientUse cid v).modelNames = w.modelNames
    ∧ (w.clientUse cid v).viewHandlers = w.viewHandlers := by
  unfold World.clientUse World.modifyClient
  cases w.clientHeap[cid]? <;> simp

/-- The middleware-backlog fold only touches the client heap. -/
theorem foldl_clientUse_proj (cid : Nat) :
    ∀ (mids : List Val) (w : World),
      (mids.foldl (fun w v => w.clientUse cid v) w).bindingHeap = w.bindingHeap
      ∧ (mids.foldl (fun w v => w.clientUse cid v) w).registry = w.registry
      ∧ (mids.foldl (fun w v => w.clientUse cid v) w).modelNames = w.modelNames := by
  intro mids
  induction mids with
  | nil => intro w; exact ⟨rfl, rfl, rfl⟩
  | cons v rest ih =>
    intro w
    simp only [List.foldl_cons]
    obtain ⟨i1, i2, i3⟩ := ih (w.clientUse cid v)
    obtain ⟨c1, c2, c3, c4⟩ := clientUse_proj w cid v
    exact ⟨i1.trans c1, i2.trans c2, i3.trans c3⟩

/-- Mutating a binding object preserves registry heap-consistency. -/
theorem WF_modifyBinding (w : World) (i : Nat) (f : Binding → Binding)
    (hwf : ∀ p ∈ w.registry, p.2 < w.bindingHeap.length) :
    ∀ p ∈ (w.modifyBinding i f).registry, p.2 < (w.modifyBinding i f).bindingHeap.length := by
  intro p hp
  rw [modifyBinding_heapLength]
  exact hwf p ((modifyBinding_proj w i f).1 ▸ hp)

/-- `Context.add` of an in-heap binding preserves registry
heap-consistency. -/
theorem addBindingId_facts2 (w w' : World) (i : Nat)
    (hwf : ∀ p ∈ w.registry, p.2 < w.bindingHeap.length)
    (hi : i < w.bindingHeap.length)
    (h : w.addBindingId i = .ok w') :
    ∀ p ∈ w'.registry, p.2 < w'.bindingHeap.length := by
  unfold World.addBindingId at h
  split at h
  · exact absurd h (by simp)
  next b hb =>
    split at h
    next old hold =>
      split at h
      · exact absurd h (by simp)
      · obtain rfl := Except.ok.inj h
        intro p hp
        simp only [] at hp ⊢
        obtain ⟨q, hq, hqe⟩ := List.mem_map.mp hp
        by_cases hqb : q.1 = b.key
        · rw [if_pos hqb] at hqe
          rw [← hqe]
          exact hi
        · rw [if_neg hqb] at hqe
          rw [← hqe]
          exact hwf q hq
    next hold =>
      obtain rfl := Except.ok.inj h
      intro p hp
      simp only [] at hp ⊢
      rcases List.mem_append.mp hp with h1 | h2
      · exact hwf p h1
      · simp at h2
        rw [h2]
        exact hi

/-- `Context.bind` preserves client state, handlers, model names and
registry heap-consistency. -/
theorem bindKey_facts (w wk : World) (key : String) (i : Nat)
    (hwf : ∀ p ∈ w.registry, p.2 < w.bindingHeap.length)
    (h : w.bindKey key = .ok (wk, i)) :
    wk.modelNames = w.modelNames ∧ wk.viewHandlers = w.viewHandlers
    ∧ wk.clientHeap = w.clientHeap
    ∧ (∀ p ∈ wk.registry, p.2 < wk.bindingHeap.length) := by
  unfold World.bindKey World.newBinding at h
  simp only [bind, Except.bind, pure, Except.pure] at h
  cases hadd : ({ w with bindingHeap := w.bindingHeap ++
      [{ id := w.bindingHeap.length, key := key }] } : World).addBindingId
      w.bindingHeap.length with
  | error e => rw [hadd] at h; exact absurd h (by simp)
  | ok w2 =>
    rw [hadd] at h
    obtain ⟨h1, h2⟩ := Prod.mk.inj (Except.ok.inj h)
    obtain rfl := h1
    have hwfapp : ∀ p ∈ ({ w with bindingHeap := w.bindingHeap ++
        [{ id := w.bindingHeap.length, key := key }] } : World).registry,
        p.2 < ({ w with bindingHeap := w.bindingHeap ++
          [{ id := w.bindingHeap.length, key := key }] } : World).bindingHeap.length := by
      intro p hp
      simp only [List.length_append, List.length_cons, List.length_nil]
      exact Nat.lt_succ_of_lt (hwf p hp)
    have hlt : w.bindingHeap.length < ({ w with bindingHeap := w.bindingHeap ++
        [{ id := w.bindingHeap.length, key := key }] } : World).bindingHeap.length := by
      simp
    obtain ⟨f1, f2, f3, f4⟩ := addBindingId_facts _ _ _ hadd
    refine ⟨f4, f3, f2, ?_⟩
    have := addBindingId_facts2 _ _ _ hwfapp hlt hadd
    exact this

/-- The model-binding loop never displaces a locked binding: it would throw
instead. -/
theorem bindModels_preserves_locked (cid : Nat) :
    ∀ (names : List String) (w w' : World) (key : String) (b : Binding),
      bindModels w cid names = .ok w' →
      (∀ p ∈ w.registry, p.2 < w.bindingHeap.length) →
      w.getBinding key = some b → b.isLocked = true →
      w'.getBinding key = some b := by
  intro names
  induction names with
  | nil =>
    intro w w' key b h _ hgb _
    obtain rfl := Except.ok.inj h
    exact hgb
  | cons name rest ih =>
    intro w w' key b h hwf hgb hlk
    unfold bindModels at h
    simp only [bind, Except.bind] at h
    cases hadd : ((createBindingFromPrismaModelName w
        (Val.modelAccessor cid name.toLower) name).1.lockBinding
        (createBindingFromPrismaModelName w
          (Val.modelAccessor cid name.toLower) name).2).addBindingId
        (createBindingFromPrismaModelName w (Val.modelAccessor cid name.toLower) name).2 with
    | error e =>
      rw [hadd] at h
      exact absurd h (by simp)
    | ok w3 =>
      rw [hadd] at h
      obtain ⟨hwf3, hkb, hpres, hmn3, hch3, hunl⟩ := modelIteration_facts w cid name w3 hwf hadd
      by_cases hkey : key = PRISMA_MODEL_NAMESPACE ++ "." ++ name
      · subst hkey
        rw [hunl b hgb] at hlk
        exact absurd hlk (by simp)
      · exact ih w3 w' key b h hwf3 (hpres key b hkey hgb) hlk

/-- After the model-binding loop, every processed model name resolves to a
locked, tagged, constant binding holding that model's accessor. -/
theorem bindModels_getBinding (cid : Nat) :
    ∀ (names : List String) (w w' : World),
      bindModels w cid names = .ok w' →
      (∀ p ∈ w.registry, p.2 < w.bindingHeap.length) →
      ∀ name ∈ names, ∃ b,
        w'.getBinding (PRISMA_MODEL_NAMESPACE ++ "." ++ name) = some b
        ∧ b.isLocked = true ∧ b.tags = [PRISMA_MODEL_TAG]
        ∧ b.type = some BindingType.constant
        ∧ b.value = some (Val.modelAccessor cid name.toLower) := by
  intro names
  induction names with
  | nil =>
    intro w w' h hwf name hname
    exact absurd hname (List.not_mem_nil name)
  | cons nm rest ih =>
    intro w w' h hwf name hname
    unfold bindModels at h
    simp only [bind, Except.bind] at h
    cases hadd : ((createBindingFromPrismaModelName w
        (Val.modelAccessor cid nm.toLower) nm).1.lockBinding
        (createBindingFromPrismaModelName w
          (Val.modelAccessor cid nm.toLower) nm).2).addBindingId
        (createBindingFromPrismaModelName w (Val.modelAccessor cid nm.toLower) nm).2 with
    | error e =>
      rw [hadd] at h
      exact absurd h (by simp)
    | ok w3 =>
      rw [hadd] at h
      obtain ⟨hwf3, hkb, hpres, hmn3, hch3, hunl⟩ := modelIteration_facts w cid nm w3 hwf hadd
      rcases List.mem_cons.mp hname with rfl | hmem
      · exact ⟨_, bindModels_preserves_locked cid rest w3 w' _ _ h hwf3 hkb rfl,
          rfl, rfl, rfl, rfl⟩
      · exact ih w3 w' h hwf3 name hmem

/-- Locking preserves registry heap-consistency. -/
theorem WF_lockBinding (w : World) (i : Nat)
    (hwf : ∀ p ∈ w.registry, p.2 < w.bindingHeap.length) :
    ∀ p ∈ (w.lockBinding i).registry, p.2 < (w.lockBinding i).bindingHeap.length := by
  unfold World.lockBinding
  exact WF_modifyBinding w i _ hwf

/-- Locking preserves the model names. -/
theorem lockBinding_modelNames (w : World) (i : Nat) :
    (w.lockBinding i).modelNames = w.modelNames := by
  unfold World.lockBinding
  exact (modifyBinding_proj _ _ _).2.2.2

/-- Any successful fresh `init()` registers, for every model name of the
generated client, a locked, tagged, constant binding under the model
namespace holding the client's accessor for that model. -/
theorem init_model_bindings (w w' : World) (c c' : PrismaComponent)
    (hwf : ∀ p ∈ w.registry, p.2 < w.bindingHeap.length)
    (hni : c.isInitialized = false)
    (hinit : PrismaComponent.init w c = .ok (w', c')) :
    ∃ cid, c'.prismaClient = some cid ∧
      ∀ name ∈ w.modelNames, ∃ b,
        w'.getBinding (PRISMA_MODEL_NAMESPACE ++ "." ++ name) = some b
        ∧ b.isLocked = true ∧ b.tags = [PRISMA_MODEL_TAG]
        ∧ b.type = some BindingType.constant
        ∧ b.value = some (Val.modelAccessor cid name.toLower) := by
  rw [show PrismaComponent.init w c = PrismaComponent.initFresh w c from by
    unfold PrismaComponent.init; rw [hni]; simp] at hinit
  unfold PrismaComponent.initFresh at hinit
  simp only [bind, Except.bind, pure, Except.pure] at hinit
  cases hens : ensureNoConflictingPrismaProvidedAndBound w c.prismaClient with
  | error e => rw [hens] at hinit; simp at hinit
  | ok u =>
  rw [hens] at hinit
  simp only [] at hinit
  cases hpc : c.prismaClient with
  | some pc =>
    rw [hpc] at hinit
    simp only [] at hinit
    cases hval : ensureValidPrismaClientBinding pc w with
    | error e => rw [hval] at hinit; simp at hinit
    | ok v2 =>
    rw [hval] at hinit
    simp only [] at hinit
    cases hpcb : v2.lookupId PRISMA_CLIENT_INSTANCE with
    | none => rw [hpcb] at hinit; simp at hinit
    | some pcb =>
    rw [hpcb] at hinit
    simp only [] at hinit
    cases hmv : ((v2.lockBinding c.optionsBindingId).lockBinding pcb).middlewareValues with
    | error e => rw [hmv] at hinit; simp at hinit
    | ok mids0 =>
    rw [hmv] at hinit
    simp only [] at hinit
    split at hinit
    next e heqbm => simp at hinit
    next wfin heqbm =>
      obtain ⟨h1, h2⟩ := Prod.mk.inj (Except.ok.inj hinit)
      refine ⟨pc, by rw [← h2], ?_⟩
      have f2 := ensureValid_facts pc w v2 hwf hval
      have hWFlock : ∀ p ∈ ((v2.lockBinding c.optionsBindingId).lockBinding pcb).registry,
          p.2 < ((v2.lockBinding c.optionsBindingId).lockBinding pcb).bindingHeap.length :=
        WF_lockBinding _ _ (WF_lockBinding _ _ f2.2.2.2.2)
      have hmnlock : ((v2.lockBinding c.optionsBindingId).lockBinding pcb).modelNames =
          w.modelNames := by
        rw [lockBinding_modelNames, lockBinding_modelNames, f2.2.2.1]
      obtain ⟨e1, e2, e3⟩ := foldl_clientUse_proj pc mids0
        ((v2.lockBinding c.optionsBindingId).lockBinding pcb)
      have hWFfold : ∀ p ∈ (List.foldl (fun w v => w.clientUse pc v)
          ((v2.lockBinding c.optionsBindingId).lockBinding pcb) mids0).registry,
          p.2 < (List.foldl (fun w v => w.clientUse pc v)
            ((v2.lockBinding c.optionsBindingId).lockBinding pcb) mids0).bindingHeap.length := by
        intro p hp
        rw [e1]
        exact hWFlock p (e2 ▸ hp)
      have hmnfold : (List.foldl (fun w v => w.clientUse pc v)
          ((v2.lockBinding c.optionsBindingId).lockBinding pcb) mids0).modelNames =
          w.modelNames := by
        rw [e3, hmnlock]
      have hres := bindModels_getBinding pc _ _ wfin heqbm hWFfold
      intro name hname
      rw [← h1]
      exact hres name (by rw [hmnfold]; exact hname)
  | none =>
    rw [hpc] at hinit
    simp only [] at hinit
    cases hcfg : w.getSync COMPONENT_CONFIG_KEY with
    | none => rw [hcfg] at hinit; simp at hinit
    | some vv =>
    rw [hcfg] at hinit
    cases vv with
    | client i => simp at hinit
    | middleware i => simp at hinit
    | modelAccessor a b => simp at hinit
    | options o =>
    simp only [] at hinit
    cases hbk : (w.newClient o.prismaClient).1.bindKey PRISMA_CLIENT_INSTANCE with
    | error e => rw [hbk] at hinit; simp at hinit
    | ok v2 =>
    rw [hbk] at hinit
    simp only [] at hinit
    cases hpcb : ((v2.1.bindingTo v2.2 (Val.client (w.newClient o.prismaClient).2)).bindingInScope
        v2.2 BindingScope.singleton).lookupId PRISMA_CLIENT_INSTANCE with
    | none => rw [hpcb] at hinit; simp at hinit
    | some pcb =>
    rw [hpcb] at hinit
    simp only [] at hinit
    cases hmv : ((((v2.1.bindingTo v2.2 (Val.client (w.newClient o.prismaClient).2)).bindingInScope
        v2.2 BindingScope.singleton).lockBinding c.optionsBindingId).lockBinding
        pcb).middlewareValues with
    | error e => rw [hmv] at hinit; simp at hinit
    | ok mids0 =>
    rw [hmv] at hinit
    simp only [] at hinit
    split at hinit
    next e heqbm => simp at hinit
    next wfin heqbm =>
      obtain ⟨h1, h2⟩ := Prod.mk.inj (Except.ok.inj hinit)
      refine ⟨(w.newClient o.prismaClient).2, by rw [← h2], ?_⟩
      have hwf1 : ∀ p ∈ (w.newClient o.prismaClient).1.registry,
          p.2 < (w.newClient o.prismaClient).1.bindingHeap.length := hwf
      have fk := bindKey_facts (w.newClient o.prismaClient).1 v2.1
        PRISMA_CLIENT_INSTANCE v2.2 hwf1 hbk
      have hWFx : ∀ p ∈ ((v2.1.bindingTo v2.2
          (Val.client (w.newClient o.prismaClient).2)).bindingInScope
          v2.2 BindingScope.singleton).registry,
          p.2 < ((v2.1.bindingTo v2.2
            (Val.client (w.newClient o.prismaClient).2)).bindingInScope
            v2.2 BindingScope.singleton).bindingHeap.length := by
        unfold World.bindingInScope World.bindingTo
        exact WF_modifyBinding _ _ _ (WF_modifyBinding _ _ _ fk.2.2.2)
      have hmnx : ((v2.1.bindingTo v2.2
          (Val.client (w.newClient o.prismaClient).2)).bindingInScope
          v2.2 BindingScope.singleton).modelNames = w.modelNames := by
        unfold World.bindingInScope World.bindingTo
        rw [(modifyBinding_proj _ _ _).2.2.2, (modifyBinding_proj _ _ _).2.2.2, fk.1]
        rfl
      have hWFlock : ∀ p ∈ (((((v2.1.bindingTo v2.2
          (Val.client (w.newClient o.prismaClient).2)).bindingInScope
          v2.2 BindingScope.singleton).lockBinding c.optionsBindingId).lockBinding
          pcb)).registry,
          p.2 < (((((v2.1.bindingTo v2.2
            (Val.client (w.newClient o.prismaClient).2)).bindingInScope
            v2.2 BindingScope.singleton).lockBinding c.optionsBindingId).lockBinding
            pcb)).bindingHeap.length :=
        WF_lockBinding _ _ (WF_lockBinding _ _ hWFx)
      have hmnlock : (((((v2.1.bindingTo v2.2
          (Val.client (w.newClient o.prismaClient).2)).bindingInScope
          v2.2 BindingScope.singleton).lockBinding c.optionsBindingId).lockBinding
          pcb)).modelNames = w.modelNames := by
        rw [lockBinding_modelNames, lockBinding_modelNames, hmnx]
      obtain ⟨e1, e2, e3⟩ := foldl_clientUse_proj (w.newClient o.prismaClient).2 mids0
        (((((v2.1.bindingTo v2.2
          (Val.client (w.newClient o.prismaClient).2)).bindingInScope
          v2.2 BindingScope.singleton).lockBinding c.optionsBindingId).lockBinding pcb))
      have hWFfold : ∀ p ∈ (List.foldl (fun w_1 v => w_1.clientUse (w.newClient o.prismaClient).2 v)
          (((((v2.1.bindingTo v2.2
            (Val.client (w.newClient o.prismaClient).2)).bindingInScope
            v2.2 BindingScope.singleton).lockBinding c.optionsBindingId).lockBinding pcb))
          mids0).registry,
          p.2 < (List.foldl (fun w_1 v => w_1.clientUse (w.newClient o.prismaClient).2 v)
          (((((v2.1.bindingTo v2.2
            (Val.client (w.newClient o.prismaClient).2)).bindingInScope
            v2.2 BindingScope.singleton).lockBinding c.optionsBindingId).lockBinding pcb))
          mids0).bindingHeap.length := by
        intro p hp
        rw [e1]
        exact hWFlock p (e2 ▸ hp)
      have hmnfold : (List.foldl (fun w_1 v => w_1.clientUse (w.newClient o.prismaClient).2 v)
          (((((v2.1.bindingTo v2.2
            (Val.client (w.newClient o.prismaClient).2)).bindingInScope
            v2.2 BindingScope.singleton).lockBinding c.optionsBindingId).lockBinding pcb))
          mids0).modelNames = w.modelNames := by
        rw [e3, hmnlock]
      have hres := bindModels_getBinding (w.newClient o.prismaClient).2 _ _ wfin heqbm hWFfold
      intro name hname
      rw [← h1]
      exact hres name (by rw [hmnfold]; exact hname)

/-- C8: during `init()`, for every model name exposed by the client a
model-accessor binding is registered: one named (default namespace dot model
name), tagged, locked, constant binding per model name whose value is the
client's accessor property (the lower-cased model name) for that model. -/
theorem C8_model_bindings (w w' : World) (c c' : PrismaComponent)
    (hwf : ∀ p ∈ w.registry, p.2 < w.bindingHeap.length)
    (hni : c.isInitialized = false)
    (hinit : PrismaComponent.init w c = .ok (w', c')) :
    ∃ cid, c'.prismaClient = some cid ∧
      ∀ name ∈ w.modelNames, ∃ b,
        w'.getBinding (PRISMA_MODEL_NAMESPACE ++ "." ++ name) = some b
        ∧ b.isLocked = true ∧ b.tags = [PRISMA_MODEL_TAG]
        ∧ b.type = some BindingType.constant
        ∧ b.value = some (Val.modelAccessor cid name.toLower) :=
  init_model_bindings w w' c c' hwf hni hinit

/-- Witness for C8 at the demonstration scenario, model `User`. -/
theorem C8_model_bindings_witness :
    ((demoInitialized.1.getBinding (PRISMA_MODEL_NAMESPACE ++ "." ++ "User")).map
      (fun b => (b.isLocked, b.tags, b.type, b.value))) =
      some (true, [PRISMA_MODEL_TAG], some BindingType.constant,
        some (Val.modelAccessor 0 "User".toLower)) := by
  obtain ⟨cid, hcid, hres⟩ := C8_model_bindings demoConstructed.1 demoInitialized.1
    demoConstructed.2 demoInitialized.2 (by decide) (by rfl) (by rfl)
  have h0 : demoInitialized.2.prismaClient = some 0 := by rfl
  rw [h0] at hcid
  obtain rfl := Option.some.inj hcid
  obtain ⟨b, hb, h1, h2, h3, h4⟩ := hres "User" (by decide)
  rw [hb]
  simp only [Option.map_some', h1, h2, h3, h4]

/-- C10: whatever `options.models.namespace` and `options.models.tags` were
configured to, the model-accessor bindings created during `init()` use the
fixed default namespace for their keys and carry the fixed default tag. -/
theorem C10_fixed_namespace_and_tag (w w' : World) (c c' : PrismaComponent)
    (ns : String) (tgs : List String)
    (_hopt : c.options.models = some { «namespace» := some ns, tags := some tgs })
    (hwf : ∀ p ∈ w.registry, p.2 < w.bindingHeap.length)
    (hni : c.isInitialized = false)
    (hinit : PrismaComponent.init w c = .ok (w', c')) :
    ∀ name ∈ w.modelNames, ∃ b,
      w'.getBinding (PRISMA_MODEL_NAMESPACE ++ "." ++ name) = some b
      ∧ b.tags = [PRISMA_MODEL_TAG] := by
  obtain ⟨cid, _, hres⟩ := init_model_bindings w w' c c' hwf hni hinit
  intro name hname
  obtain ⟨b, hb, _, htags, _, _⟩ := hres name hname
  exact ⟨b, hb, htags⟩

/-- Options configuring a custom model namespace and custom tags. -/
def c10Opts : PrismaOptions :=
  { models := some { «namespace» := some "customNS", tags := some ["customTag"] } }

/-- The component constructed with `c10Opts`. -/
def c10Constructed : World × PrismaComponent :=
  ((PrismaComponent.construct demoWorld none (some c10Opts)).toOption).getD
    (demoWorld, fallbackComponent)

/-- `c10Constructed` after `init()`. -/
def c10Initialized : World × PrismaComponent :=
  ((PrismaComponent.init c10Constructed.1 c10Constructed.2).toOption).getD
    (demoWorld, fallbackComponent)

/-- Witness for C10: with a custom namespace and tags configured, the `User`
model binding still carries the default tag under the default namespace. -/
theorem C10_fixed_namespace_and_tag_witness :
    ((c10Initialized.1.getBinding (PRISMA_MODEL_NAMESPACE ++ "." ++ "User")).map
      (fun b => b.tags)) = some [PRISMA_MODEL_TAG]
    ∧ c10Constructed.2.options.models =
      some { «namespace» := some "customNS", tags := some ["customTag"] } := by
  constructor
  · have h := C10_fixed_namespace_and_tag c10Constructed.1 c10Initialized.1
      c10Constructed.2 c10Initialized.2 "customNS" ["customTag"]
      (by rfl) (by decide) (by rfl) (by rfl)
    obtain ⟨b, hb, htags⟩ := h "User" (by decide)
    rw [hb]
    simp [htags]
  · rfl
